import Mathlib

/-!
Verification model of the RAS error/event decoding and de-duplication engine of
`ampere-platform-mgmt` (`altra/host-monitor/error-monitor/ampere-host-error-monitor.cpp`
together with `include/utils.hpp` and `include/selUtils.hpp`).

Machine integers of the C++ source are modelled as `Nat` with explicit reductions
(`% 256`, `% 2 ^ 16`, ...) exactly at the points where the C++ performs a narrowing
conversion (stores into `u_int8_t` / `vector<uint8_t>` cells, masks, and the hex
parsers).  Strings are modelled as `List Char` / `String`.  Each emitted record
(IPMI SEL OEM record, Redfish journal record) is modelled as explicit data.
-/

namespace AmpereRas

/-! ### Field parser (`utils.hpp`, `parseHexStrToUInt8/16/32/64`)

The C++ parsers call `strtoul`/`strtoull` with base 16 (64-bit `unsigned long` on
the target platform) and return 0 whenever the character after the consumed
subject sequence is not the terminating NUL.  We model `strtoul`'s base-16
behaviour: optional leading whitespace, an optional sign, an optional `0x`/`0X`
prefix (consumed only when followed by a hex digit), the longest run of hex
digits, saturation of out-of-range magnitudes at `ULONG_MAX`, and negation
modulo `2 ^ 64` for a minus sign. -/

/-- Characters accepted by C `isspace` in the default locale. -/
def isSpaceChar (c : Char) : Bool :=
  c = ' ' || c = '\t' || c = '\n' || c = '\x0b' || c = '\x0c' || c = '\r'

/-- Value of a hexadecimal digit, `none` for a non-hex-digit character. -/
def hexVal? (c : Char) : Option Nat :=
  if '0' ≤ c ∧ c ≤ '9' then some (c.toNat - '0'.toNat)
  else if 'a' ≤ c ∧ c ≤ 'f' then some (c.toNat - 'a'.toNat + 10)
  else if 'A' ≤ c ∧ c ≤ 'F' then some (c.toNat - 'A'.toNat + 10)
  else none

/-- Whether a character is a hexadecimal digit. -/
def isHexDigit (c : Char) : Bool := (hexVal? c).isSome

/-- Consume the longest run of hex digits, accumulating the (unbounded) value;
returns the value together with the unconsumed remainder of the string. -/
def hexDigitsRun (acc : Nat) : List Char → Nat × List Char
  | [] => (acc, [])
  | c :: t =>
    match hexVal? c with
    | some v => hexDigitsRun (acc * 16 + v) t
    | none => (acc, c :: t)

/-- Optional sign at the start of the subject sequence. -/
def splitSign : List Char → Bool × List Char
  | '-' :: t => (true, t)
  | '+' :: t => (false, t)
  | s => (false, s)

/-- Subject-sequence recognition of C `strtoul(str, &p, 16)`: returns
`some (negated, magnitude, rest)` where `rest` is the part of the string after
the subject sequence (the final position of `p`), or `none` when no conversion
could be performed (in which case `p` is reset to the start of the string). -/
def strtoul16Core (s : List Char) : Option (Bool × Nat × List Char) :=
  let s1 := s.dropWhile isSpaceChar
  let p := splitSign s1
  match p.2 with
  | '0' :: c :: t =>
    if c = 'x' ∨ c = 'X' then
      match t with
      | d :: _ => if isHexDigit d then some (p.1, hexDigitsRun 0 t) else some (p.1, 0, c :: t)
      | [] => some (p.1, 0, c :: t)
    else some (p.1, hexDigitsRun 0 ('0' :: c :: t))
  | c :: _ => if isHexDigit c then some (p.1, hexDigitsRun 0 p.2) else none
  | [] => none

/-- Largest value of the 64-bit `unsigned long` used by `strtoul` on the target. -/
def ULONG_MAX : Nat := 2 ^ 64 - 1

/-- Return value of `strtoul`: magnitudes beyond `ULONG_MAX` saturate to
`ULONG_MAX`; a minus sign negates in the (64-bit) return type. -/
def strtoulFinish (neg : Bool) (m : Nat) : Nat :=
  if m > ULONG_MAX then ULONG_MAX
  else if neg then (2 ^ 64 - m % 2 ^ 64) % 2 ^ 64
  else m

/-- Full model of `strtoul(str, &p, 16)`: the returned value and the final
position of `p` (the unconsumed remainder of the string). -/
def strtoul16 (s : List Char) : Nat × List Char :=
  match strtoul16Core s with
  | none => (0, s)
  | some (neg, m, rest) => (strtoulFinish neg m, rest)

/-- Model of `ampere::utils::parseHexStrToUInt64`: 0 when a character remains
after the subject sequence, else the `strtoul` value masked to 64 bits. -/
def parseHexStrToUInt64 (s : List Char) : Nat :=
  let r := strtoul16 s
  if r.2 ≠ [] then 0 else r.1 % 2 ^ 64

/-- Model of `ampere::utils::parseHexStrToUInt32` (mask `& 0xffffffff`). -/
def parseHexStrToUInt32 (s : List Char) : Nat :=
  let r := strtoul16 s
  if r.2 ≠ [] then 0 else r.1 % 2 ^ 32

/-- Model of `ampere::utils::parseHexStrToUInt16` (mask `& 0xffff`). -/
def parseHexStrToUInt16 (s : List Char) : Nat :=
  let r := strtoul16 s
  if r.2 ≠ [] then 0 else r.1 % 2 ^ 16

/-- Model of `ampere::utils::parseHexStrToUInt8` (mask `& 0xff`). -/
def parseHexStrToUInt8 (s : List Char) : Nat :=
  let r := strtoul16 s
  if r.2 ≠ [] then 0 else r.1 % 2 ^ 8

/-- Spec reading of "the result is the parsed value masked to the requested
width" (compare with `parseHexStrToUInt8/16/32/64`): the same subject sequence
as `strtoul`, but the mathematical value of the digit string is masked
directly, with no saturation of out-of-range magnitudes at `ULONG_MAX`. -/
def specParseHex (width : Nat) (s : List Char) : Nat :=
  match strtoul16Core s with
  | none => 0
  | some (neg, m, rest) =>
    if rest ≠ [] then 0
    else (if neg then (2 ^ 64 - m % 2 ^ 64) % 2 ^ 64 else m) % 2 ^ width

/-! ### Line tokenization (`parseAndLogErrors` / `parseAndLogEvents` front end)

The C++ first erases every `'\n'` from the line and then calls
`boost::split(result, line, boost::is_any_of(" "))`, which cuts at every single
space character (consecutive spaces produce empty tokens, and the empty line
produces one empty token). -/

/-- Model of `boost::split` with separator set `" "`. -/
def splitOnSpace : List Char → List (List Char)
  | [] => [[]]
  | c :: t =>
    if c = ' ' then [] :: splitOnSpace t
    else
      match splitOnSpace t with
      | h :: r => (c :: h) :: r
      | [] => [[c]]

/-- Erase every newline character, as `errLine.erase(remove(...,'\n'),...)` does. -/
def stripNewlines (s : List Char) : List Char := s.filter (fun c => c ≠ '\n')

/-- Tokens of an input line: newline removal followed by splitting at spaces. -/
def tokensOf (s : List Char) : List (List Char) := splitOnSpace (stripNewlines s)

/-! ### Error classifier data model (`ampere-host-error-monitor.cpp`) -/

/-- Values of the `ErrorTypes` enum. -/
def errors_core_ue : Nat := 0
def errors_mem_ue : Nat := 1
def errors_pcie_ue : Nat := 2
def errors_other_ue : Nat := 3
def errors_core_ce : Nat := 4
def errors_mem_ce : Nat := 5
def errors_pcie_ce : Nat := 6
def errors_other_ce : Nat := 7
def errors_smpro : Nat := 8
def errors_pmpro : Nat := 9

/-- Raw sensor-type constants. -/
def TYPE_TEMP : Nat := 0x03
def TYPE_STATE : Nat := 0x05
def TYPE_OTHER : Nat := 0x12
def TYPE_MEM : Nat := 0x0C
def TYPE_CORE : Nat := 0x07
def TYPE_PCIE : Nat := 0x13
def TYPE_SMPM : Nat := 0xCA

/-- Ampere IANA identifier bytes placed at the head of every OEM SEL payload. -/
def AMPERE_IANA_BYTE_1 : Nat := 0x3A
def AMPERE_IANA_BYTE_2 : Nat := 0xCD
def AMPERE_IANA_BYTE_3 : Nat := 0x00

/-- One row of `errorTypeTable` (`struct ErrorData`). -/
structure ErrorData where
  socket : Nat
  intErrorType : Nat
  label : String
  errType : Nat
  errNum : Nat
  errName : String
  redFishMsgID : String
  deriving Repr, DecidableEq

/-- The static `errorTypeTable` (20 rows). -/
def errorTypeTable : List ErrorData :=
  [⟨0, errors_core_ue, "errors_core_ue", TYPE_CORE, 140, "UE_CPU_IError", "CPUError"⟩,
   ⟨0, errors_mem_ue, "errors_mem_ue", TYPE_MEM, 168, "UE_Memory_IErr", "MemoryECCUncorrectable"⟩,
   ⟨0, errors_pcie_ue, "errors_pcie_ue", TYPE_PCIE, 202, "UE_PCIE_IErr", "PCIeFatalUncorrectableInternal"⟩,
   ⟨0, errors_other_ue, "errors_other_ue", TYPE_OTHER, 142, "UE_SoC_IErr", "AmpereCritical"⟩,
   ⟨1, errors_core_ue, "errors_core_ue", TYPE_CORE, 140, "UE_CPU_IError", "CPUError"⟩,
   ⟨1, errors_mem_ue, "errors_mem_ue", TYPE_MEM, 168, "UE_Memory_IErr", "MemoryECCUncorrectable"⟩,
   ⟨1, errors_pcie_ue, "errors_pcie_ue", TYPE_PCIE, 202, "UE_PCIE_IErr", "PCIeFatalUncorrectableInternal"⟩,
   ⟨1, errors_other_ue, "errors_other_ue", TYPE_OTHER, 142, "UE_SoC_IErr", "AmpereCritical"⟩,
   ⟨0, errors_core_ce, "errors_core_ce", TYPE_CORE, 139, "CE_CPU_IError", "CPUError"⟩,
   ⟨0, errors_mem_ce, "errors_mem_ce", TYPE_MEM, 151, "CE_Memory_IErr", "MemoryECCCorrectable"⟩,
   ⟨0, errors_pcie_ce, "errors_pcie_ce", TYPE_PCIE, 191, "CE_PCIE_IErr", "PCIeFatalECRCError"⟩,
   ⟨0, errors_other_ce, "errors_other_ce", TYPE_OTHER, 141, "CE_SoC_IErr", "AmpereCritical"⟩,
   ⟨1, errors_core_ce, "errors_core_ce", TYPE_CORE, 139, "CE_CPU_IError", "CPUError"⟩,
   ⟨1, errors_mem_ce, "errors_mem_ce", TYPE_MEM, 151, "CE_Memory_IErr", "MemoryECCCorrectable"⟩,
   ⟨1, errors_pcie_ce, "errors_pcie_ce", TYPE_PCIE, 191, "CE_PCIE_IErr", "PCIeFatalECRCError"⟩,
   ⟨1, errors_other_ce, "errors_other_ce", TYPE_OTHER, 141, "CE_SoC_IErr", "AmpereCritical"⟩,
   ⟨0, errors_smpro, "errors_smpro", TYPE_SMPM, 147, "SMPRO_IErr", "AmpereCritical"⟩,
   ⟨0, errors_pmpro, "errors_pmpro", TYPE_SMPM, 148, "PMPRO_IErr", "AmpereCritical"⟩,
   ⟨1, errors_smpro, "errors_smpro", TYPE_SMPM, 147, "SMPRO_IErr", "AmpereCritical"⟩,
   ⟨1, errors_pmpro, "errors_pmpro", TYPE_SMPM, 148, "PMPRO_IErr", "AmpereCritical"⟩]

/-- One value of the occurrence-description map (`struct ErrorInfo`). -/
structure ErrorInfo where
  errType : Nat
  subType : Nat
  numPars : Nat
  errName : String
  errMsgFormat : String
  deriving Repr, DecidableEq

set_option maxHeartbeats 1600000 in
/-- The occurrence-description table `mapOfOccur`, keyed by `errType<<8 | subType`. -/
def mapOfOccur : List (Nat × ErrorInfo) :=
  [(0x0000, ⟨0, 0, 2, "CPM Snoop-Logic", "Socket%s CPM%s"⟩),
   (0x0001, ⟨0, 1, 2, "CPM Core 0", "Socket%s CPM%s"⟩),
   (0x0002, ⟨0, 2, 2, "CPM Core 1", "Socket%s CPM%s"⟩),
   (0x0101, ⟨1, 1, 2, "MCU ERR Record 1 (DRAM CE)", "Socket%s MCU%s"⟩),
   (0x0102, ⟨1, 2, 2, "MCU ERR Record 2 (DRAM UE)", "Socket%s MCU%s"⟩),
   (0x0103, ⟨1, 3, 2, "MCU ERR Record 3 (CHI Fault)", "Socket%s MCU%s"⟩),
   (0x0104, ⟨1, 4, 2, "MCU ERR Record 4 (SRAM CE)", "Socket%s MCU%s"⟩),
   (0x0105, ⟨1, 5, 2, "MCU ERR 5 (SRAM UE)", "Socket%s MCU%s"⟩),
   (0x0106, ⟨1, 6, 2, "MCU ERR 6 (DMC recovery)", "Socket%s MCU%s"⟩),
   (0x0107, ⟨1, 7, 2, "MCU Link ERR", "Socket%s MCU%s"⟩),
   (0x0200, ⟨2, 0, 2, "Mesh XP", "Socket%s instance:%s"⟩),
   (0x0201, ⟨2, 1, 2, "Mesh HNI", "Socket%s instance:%s"⟩),
   (0x0202, ⟨2, 2, 2, "Mesh HNF", "Socket%s instance:%s"⟩),
   (0x0204, ⟨2, 4, 2, "Mesh CXG", "Socket%s instance:%s"⟩),
   (0x0300, ⟨3, 0, 2, "2P AER ERR", "Socket%s Link%s"⟩),
   (0x0400, ⟨4, 0, 2, "2P ALI ERR", "Socket%s Link%s"⟩),
   (0x0500, ⟨5, 0, 1, "GIC ERR 0", "Socket%s"⟩),
   (0x0501, ⟨5, 1, 1, "GIC ERR 1", "Socket%s"⟩),
   (0x0502, ⟨5, 2, 1, "GIC ERR 2", "Socket%s"⟩),
   (0x0503, ⟨5, 3, 1, "GIC ERR 3", "Socket%s"⟩),
   (0x0504, ⟨5, 4, 1, "GIC ERR 4", "Socket%s"⟩),
   (0x0505, ⟨5, 5, 1, "GIC ERR 5", "Socket%s"⟩),
   (0x0506, ⟨5, 6, 1, "GIC ERR 6", "Socket%s"⟩),
   (0x0507, ⟨5, 7, 1, "GIC ERR 7", "Socket%s"⟩),
   (0x0508, ⟨5, 8, 1, "GIC ERR 8", "Socket%s"⟩),
   (0x0509, ⟨5, 9, 1, "GIC ERR 9", "Socket%s"⟩),
   (0x050a, ⟨5, 10, 1, "GIC ERR 10", "Socket%s"⟩),
   (0x050b, ⟨5, 11, 1, "GIC ERR 11", "Socket%s"⟩),
   (0x050c, ⟨5, 12, 1, "GIC ERR 12", "Socket%s"⟩),
   (0x0600, ⟨6, 0, 2, "SMMU TBU0", "Socket%s Root complex:%s"⟩),
   (0x0601, ⟨6, 1, 2, "SMMU TBU1", "Socket%s Root complex:%s"⟩),
   (0x0602, ⟨6, 2, 2, "SMMU TBU2", "Socket%s Root complex:%s"⟩),
   (0x0603, ⟨6, 3, 2, "SMMU TBU3", "Socket%s Root complex:%s"⟩),
   (0x0604, ⟨6, 4, 2, "SMMU TBU4", "Socket%s Root complex:%s"⟩),
   (0x0605, ⟨6, 5, 2, "SMMU TBU5", "Socket%s Root complex:%s"⟩),
   (0x0606, ⟨6, 6, 2, "SMMU TBU6", "Socket%s Root complex:%s"⟩),
   (0x0607, ⟨6, 7, 2, "SMMU TBU7", "Socket%s Root complex:%s"⟩),
   (0x0608, ⟨6, 8, 2, "SMMU TBU8", "Socket%s Root complex:%s"⟩),
   (0x0609, ⟨6, 9, 2, "SMMU TBU9", "Socket%s Root complex:%s"⟩),
   (0x0664, ⟨6, 100, 2, "SMMU TCU", "Socket%s Root complex:%s"⟩),
   (0x0700, ⟨7, 0, 2, "PCIe AER Root Port", "Socket%s Root complex:%s"⟩),
   (0x0701, ⟨7, 1, 2, "PCIe AER Device", "Socket%s Root complex:%s"⟩),
   (0x0800, ⟨8, 0, 2, "PCIe HB RCA", "Socket%s Root complex:%s"⟩),
   (0x0801, ⟨8, 1, 2, "PCIe HB RCA", "Socket%s Root complex:%s"⟩),
   (0x0808, ⟨8, 8, 2, "PCIe RASDP Error ", "Socket%s Root complex:%s"⟩),
   (0x0900, ⟨9, 0, 1, "OCM ERR 0 (ECC Fault)", "Socket%s"⟩),
   (0x0901, ⟨9, 1, 1, "OCM ERR 1 (ERR Recovery)", "Socket%s"⟩),
   (0x0902, ⟨9, 2, 1, "OCM ERR 2 (Data Poisoned)", "Socket%s"⟩),
   (0x0a00, ⟨10, 0, 1, "SMpro ERR 0 (ECC Fault)", "Socket%s"⟩),
   (0x0a01, ⟨10, 1, 1, "SMpro ERR 1 (ERR Recovery)", "Socket%s"⟩),
   (0x0a02, ⟨10, 2, 1, "SMpro MPA_ERR", "Socket%s"⟩),
   (0x0b00, ⟨11, 0, 1, "PMpro ERR 0 (ECC Fault)", "Socket%s"⟩),
   (0x0b01, ⟨11, 1, 1, "PMpro ERR 1 (ERR Recovery)", "Socket%s"⟩),
   (0x0b02, ⟨11, 2, 1, "PMpro MPA_ERR", "Socket%s"⟩),
   (0x0c00, ⟨12, 0, 1, "ATF firmware EL3", "Socket%s"⟩),
   (0x0c01, ⟨12, 1, 1, "ATF firmware SPM", "Socket%s"⟩),
   (0x0c02, ⟨12, 2, 1, "ATF firmware Secure Partition ", "Socket%s"⟩),
   (0x0d00, ⟨13, 0, 1, "SMpro firmware RAS_MSG_ERR", "Socket%s"⟩),
   (0x0e00, ⟨14, 0, 1, "PMpro firmware RAS_MSG_ERR", "Socket%s"⟩),
   (0x3f00, ⟨63, 0, 1, "BERT Default", "Socket%s"⟩),
   (0x3f01, ⟨63, 1, 1, "BERT Watchdog", "Socket%s"⟩),
   (0x3f02, ⟨63, 2, 1, "BERT ATF Fatal", "Socket%s"⟩),
   (0x3f03, ⟨63, 3, 1, "BERT SMpro Fatal", "Socket%s"⟩),
   (0x3f04, ⟨63, 4, 1, "BERT PMpro Fatal", "Socket%s"⟩),
   (0xffff, ⟨255, 255, 1, "Overflow", "Socket%s"⟩)]

/-- Lookup in `mapOfOccur` (the C++ `std::map` `count`/`operator[]` pair). -/
def mapLookup (k : Nat) : Option ErrorInfo :=
  (mapOfOccur.find? (fun p => p.1 == k)).map (fun p => p.2)

def MCU_ERR_1_TYPE : Nat := 0x0101
def MCU_ERR_2_TYPE : Nat := 0x0102

/-- Parsed bus-error record (`struct ErrorFields`). -/
structure ErrorFields where
  errType : Nat
  subType : Nat
  inst : Nat
  status : Nat
  address : Nat
  misc0 : Nat
  misc1 : Nat
  misc2 : Nat
  misc3 : Nat
  deriving Repr, DecidableEq

/-- Substitution of positional `%s` arguments as `snprintf` does for the
templates used in `mapOfOccur` (which contain only `%s` directives). -/
def fmtS : List Char → List String → List Char
  | [], _ => []
  | '%' :: 's' :: t, a :: args => a.toList ++ fmtS t args
  | '%' :: 's' :: t, [] => '%' :: 's' :: fmtS t []
  | c :: t, args => c :: fmtS t args

/-- Decimal rendering of a `%d` argument. -/
def decStr (n : Nat) : String := toString n

/-- Format string with the occurrence-table template and 1 or 2 parameters, as
`logErrorToRedfish` builds `redFishMsg`. -/
def occurMsg (eInfo : ErrorInfo) (socket inst13 : Nat) : String :=
  if eInfo.numPars = 1 then String.mk (fmtS eInfo.errMsgFormat.toList [decStr socket])
  else if eInfo.numPars = 2 then
    String.mk (fmtS eInfo.errMsgFormat.toList [decStr socket, decStr inst13])
  else ""

/-- One Redfish journal submission (`sd_journal_send` with a
`REDFISH_MESSAGE_ID` and `REDFISH_MESSAGE_ARGS`).  Each constructor corresponds
to one `sd_journal_send` call site of `logErrorToRedfish` /
`logInternalErrorToRedfish`; numeric printf arguments are carried as `Nat`
(the `dimCh` argument is rendered with `%x` in the C++, the others with `%d`). -/
inductive RMsg where
  /-- the early-return path for occurrence key `0xffff` (table overflow) -/
  | overflow (msgID comp msg : String)
  /-- `errors_core_ue` / `errors_core_ce` branch -/
  | core (msgID body : String)
  /-- first submission of the `errors_mem_*` branch (socket, channel, DIMM index, rank) -/
  | memDimm (msgID : String) (socket dimCh dimmIdx rank : Nat)
  /-- second submission of the `errors_mem_*` branch (extended-ECC data) -/
  | memExtECC (msgID : String) (bank row col : Nat)
  /-- `errors_pcie_*` branch -/
  | pcie (msgID : String) (socket inst13 zeroArg : Nat)
  /-- `errors_other_*` branch -/
  | other (msgID comp msg : String)
  /-- SMpro/PMpro internal-error submission; the message strings rendered from
  the static tables of `internalErrors.hpp` are not modelled, the raw fields are
  carried instead -/
  | internalErr (msgID : String) (socket : Nat) (errName : String)
      (subType imageCode dir location errCode data : Nat)
  deriving Repr, DecidableEq

/-- Result of `logErrorToRedfish`: the journal submissions, and whether the
fault-marker command `touch /tmp/fault_RAS_UE` was executed. -/
def logErrorToRedfish (d : ErrorData) (f : ErrorFields) : List RMsg × Bool :=
  let socket := (f.inst &&& 0xc000) >>> 14
  let inst13 := f.inst &&& 0x3fff
  let apiIdx := d.intErrorType
  let temp := (f.errType <<< 8) + f.subType
  let msgID := "OpenBMC.0.1." ++ d.redFishMsgID ++ ".Critical"
  let redFishMsg := match mapLookup temp with
    | some eInfo => occurMsg eInfo socket inst13
    | none => ""
  let redFishComp := match mapLookup temp with
    | some eInfo => eInfo.errName
    | none => ""
  if temp = 0xffff then
    ([RMsg.overflow "OpenBMC.0.1.AmpereCritical.Critical"
        (d.errName ++ ": " ++ redFishComp) redFishMsg], false)
  else
    let msgs :=
      if apiIdx = errors_core_ue ∨ apiIdx = errors_core_ce then
        [RMsg.core msgID (d.errName ++ ": " ++ redFishComp ++ " " ++ redFishMsg)]
      else if apiIdx = errors_mem_ue ∨ apiIdx = errors_mem_ce then
        let rank := (f.address >>> 20) &&& 0xF
        let bank := (f.misc0 >>> 32) &&& 0xf
        let row := ((f.misc0 >>> 10) &&& 0x3ffff) % 256
        let col := (((f.misc0 >>> 0) &&& 0x3ff) <<< 3) % 256
        let dimCh := inst13 &&& 0x7ff
        let eccID := if apiIdx = errors_mem_ue then
            "OpenBMC.0.1.MemoryExtendedECCUEData.Critical"
          else "OpenBMC.0.1.MemoryExtendedECCCEData.Warning"
        let first := if temp = MCU_ERR_1_TYPE ∨ temp = MCU_ERR_2_TYPE then
            RMsg.memDimm msgID socket dimCh ((inst13 &&& 0x3800) >>> 11) rank
          else RMsg.memDimm msgID socket dimCh 0xff 0xff
        [first, RMsg.memExtECC eccID bank row col]
      else if apiIdx = errors_pcie_ue ∨ apiIdx = errors_pcie_ce then
        [RMsg.pcie msgID socket inst13 0]
      else if apiIdx = errors_other_ue ∨ apiIdx = errors_other_ce then
        [RMsg.other msgID (d.errName ++ ": " ++ redFishComp) redFishMsg]
      else []
    (msgs, apiIdx = errors_core_ue ∨ apiIdx = errors_mem_ue ∨
           apiIdx = errors_pcie_ue ∨ apiIdx = errors_other_ue)

/-- The 12-byte OEM SEL payload built by `logErrorToIpmiSEL` (buffer pre-filled
with `0xFF`; every store into the `vector<uint8_t>` is reduced `% 256`). -/
def logErrorToIpmiSEL (d : ErrorData) (f : ErrorFields) : List Nat :=
  [AMPERE_IANA_BYTE_1, AMPERE_IANA_BYTE_2, AMPERE_IANA_BYTE_3,
   d.errType % 256, d.errNum % 256, f.errType % 256, f.subType % 256,
   ((f.inst &&& 0xff00) >>> 8) % 256, (f.inst &&& 0xff) % 256,
   0xFF, 0xFF, 0xFF]

/-- The `ErrorFields` record built by `parseAndLogErrors` from the tokens of a
line with at least 5 tokens.  When the line has fewer than 9 tokens the C++
leaves `misc0..misc3` uninitialized (stack garbage); they are modelled as 0, and
theorems about the misc fields assume at least 9 tokens.  The overflow sentinel
(`errType == 0xff && subType == 0xff`) replaces `instance` by `socket << 14`. -/
def busFields (d : ErrorData) (toks : List (List Char)) : ErrorFields :=
  let errType := parseHexStrToUInt8 (toks.getD 0 [])
  let subType := parseHexStrToUInt8 (toks.getD 1 [])
  let inst0 := parseHexStrToUInt16 (toks.getD 2 [])
  let status := parseHexStrToUInt32 (toks.getD 3 [])
  let address := parseHexStrToUInt64 (toks.getD 4 [])
  let m0 := if 9 ≤ toks.length then parseHexStrToUInt64 (toks.getD 5 []) else 0
  let m1 := if 9 ≤ toks.length then parseHexStrToUInt64 (toks.getD 6 []) else 0
  let m2 := if 9 ≤ toks.length then parseHexStrToUInt64 (toks.getD 7 []) else 0
  let m3 := if 9 ≤ toks.length then parseHexStrToUInt64 (toks.getD 8 []) else 0
  let inst := if errType = 0xff ∧ subType = 0xff then d.socket <<< 14 else inst0
  ⟨errType, subType, inst, status, address, m0, m1, m2, m3⟩

/-- Observable outcome of processing one line: the SEL payloads submitted via
`addSelOem`, the Redfish journal submissions, and whether the fault-marker file
creation command was run. -/
structure BusLogResult where
  sel : List (List Nat)
  redfish : List RMsg
  marker : Bool
  deriving Repr, DecidableEq

/-- Model of `parseAndLogErrors` (bus-error categories): lines with fewer than 5
tokens are dropped with no output and no state change. -/
def parseAndLogErrors (d : ErrorData) (line : List Char) : BusLogResult :=
  let toks := tokensOf line
  if toks.length < 5 then ⟨[], [], false⟩
  else
    let f := busFields d toks
    let r := logErrorToRedfish d f
    ⟨[logErrorToIpmiSEL d f], r.1, r.2⟩

/-- Parsed SMpro/PMpro internal-error record (`struct InternalFields`). -/
structure InternalFields where
  errType : Nat
  subType : Nat
  imageCode : Nat
  dir : Nat
  location : Nat
  errCode : Nat
  data : Nat
  deriving Repr, DecidableEq

/-- The 12-byte OEM SEL payload built by `logInternalErrorToIpmiSEL`. -/
def logInternalErrorToIpmiSEL (d : ErrorData) (f : InternalFields) : List Nat :=
  [AMPERE_IANA_BYTE_1, AMPERE_IANA_BYTE_2, AMPERE_IANA_BYTE_3,
   d.errType % 256, d.errNum % 256,
   ((f.dir <<< 7) ||| 0x71) % 256,
   (((d.socket &&& 0x1) <<< 7) ||| ((f.subType &&& 0x7) <<< 4) ||| (f.imageCode &&& 0xf)) % 256,
   (f.location &&& 0xff) % 256, (f.errCode &&& 0xff) % 256,
   ((f.errCode &&& 0xff00) >>> 8) % 256,
   (f.data &&& 0xff) % 256, ((f.data &&& 0xff00) >>> 8) % 256]

/-- Model of `logInternalErrorToRedfish`: one journal submission when the
descriptor is an SMpro/PMpro category (severity suffix `.Warning` for
`subType == SMPMPRO_WARNING`, else `.Critical`), none otherwise. -/
def logInternalErrorToRedfish (d : ErrorData) (f : InternalFields) : List RMsg :=
  let msgID := if f.subType = 1 then "OpenBMC.0.1." ++ d.redFishMsgID ++ ".Warning"
    else "OpenBMC.0.1." ++ d.redFishMsgID ++ ".Critical"
  if d.intErrorType = errors_smpro ∨ d.intErrorType = errors_pmpro then
    [RMsg.internalErr msgID d.socket d.errName f.subType f.imageCode f.dir
       f.location f.errCode f.data]
  else []

/-- Model of `parseAndLogInternalErrors` (SMpro/PMpro firmware errors): lines
with fewer than 6 tokens are dropped with no output and no state change. -/
def parseAndLogInternalErrors (d : ErrorData) (line : List Char) : BusLogResult :=
  let toks := tokensOf line
  if toks.length < 6 then ⟨[], [], false⟩
  else
    let f : InternalFields :=
      ⟨if d.intErrorType = errors_smpro then 0 else 1,
       parseHexStrToUInt8 (toks.getD 0 []),
       parseHexStrToUInt8 (toks.getD 1 []),
       parseHexStrToUInt8 (toks.getD 2 []),
       parseHexStrToUInt8 (toks.getD 3 []),
       parseHexStrToUInt16 (toks.getD 4 []),
       parseHexStrToUInt32 (toks.getD 5 [])⟩
    ⟨[logInternalErrorToIpmiSEL d f], logInternalErrorToRedfish d f, false⟩

/-! ### Event state tracker (`logEventVrdWarnFault` / `logEventVrdHot` /
`logEventDIMMHot` / `logEventDIMM2xRefresh`)

Each handler snapshots `currentMask = curEventMask[data.idx]`, then scans a
fixed set of bits of the 16-bit event data word.  For each scanned bit it
compares the data bit against the snapshot: a `0 → 1` transition emits an
"asserted" SEL record plus one Redfish submission and sets the bit in
`curEventMask[data.idx]`; a `1 → 0` transition emits a "deasserted" pair and
clears the bit via `& (0xffff - bitMask)`.  An unchanged bit emits nothing. -/

/-- Values of the `EventTypes` enum. -/
def event_vrd_warn_fault : Nat := 0
def event_vrd_hot : Nat := 1
def event_dimm_hot : Nat := 2
def event_dimm_2x_refresh : Nat := 3

def SOC_COMPONENT : Nat := 0x00
def CORE_COMPONENT : Nat := 0x01
def DIMM_COMPONENT : Nat := 0x02
def VRD_1 : Nat := 0x01
def VRD_2 : Nat := 0x02
def VRD_3 : Nat := 0x03
def VRD_4 : Nat := 0x04

/-- One row of `eventTypeTable` (`struct EventData`). -/
structure EventData where
  idx : Nat
  socket : Nat
  intEventType : Nat
  label : String
  eventType : Nat
  eventReadType : Nat
  eventNum : Nat
  eventName : String
  redFishMsgID : String
  deriving Repr, DecidableEq

/-- The static `eventTypeTable` (8 rows). -/
def eventTypeTable : List EventData :=
  [⟨0, 0, event_vrd_warn_fault, "event_vrd_warn_fault", TYPE_STATE, 0x3, 181, "VR_WarnFault", "AmpereWarning"⟩,
   ⟨1, 0, event_vrd_hot, "event_vrd_hot", TYPE_TEMP, 0x5, 180, "VR_HOT", "AmpereWarning"⟩,
   ⟨2, 0, event_dimm_hot, "event_dimm_hot", TYPE_TEMP, 0x5, 160, "DIMM_HOT", "AmpereWarning"⟩,
   ⟨3, 1, event_vrd_warn_fault, "event_vrd_warn_fault", TYPE_STATE, 0x3, 184, "VR_WarnFault", "AmpereWarning"⟩,
   ⟨4, 1, event_vrd_hot, "event_vrd_hot", TYPE_TEMP, 0x5, 183, "VR_HOT", "AmpereWarning"⟩,
   ⟨5, 1, event_dimm_hot, "event_dimm_hot", TYPE_TEMP, 0x5, 161, "DIMM_HOT", "AmpereWarning"⟩,
   ⟨6, 0, event_dimm_2x_refresh, "event_dimm_2x_refresh", TYPE_MEM, 0x3, 162, "DIMM_2X_REFRESH_RATE", "AmpereWarning"⟩,
   ⟨7, 1, event_dimm_2x_refresh, "event_dimm_2x_refresh", TYPE_MEM, 0x3, 163, "DIMM_2X_REFRESH_RATE", "AmpereWarning"⟩]

/-- Row `r` of `eventTypeTable`. -/
def eventRow (r : Fin 8) : EventData :=
  eventTypeTable.getD r.1 ⟨0, 0, 0, "", 0, 0, 0, "", ""⟩

/-- One scanned bit of an event handler: the bit position and the values the
handler writes into payload bytes 7 and 8 for a transition of that bit. -/
structure ScanItem where
  bit : Nat
  b7 : Nat
  b8 : Nat
  deriving Repr, DecidableEq

/-- One emitted event transition.  In the C++ each transition produces exactly
one OEM SEL submission (`addSelOem`, payload `sel`) and exactly one Redfish
journal submission (`sd_journal_send` with an `Asserted.`/`Deasserted.`
message); `asserted` records the direction. -/
structure Emission where
  bit : Nat
  asserted : Bool
  sel : List Nat
  deriving Repr, DecidableEq

/-- The 12-byte OEM SEL payload of an event transition: IANA prefix, event
type/number, direction bit packed above the read type, the fixed
`0x1 | EVENT_DATA_1 | EVENT_DATA_3` byte, payload bytes 7/8, and the untouched
`0xFF` fill.  Stores into the `vector<uint8_t>` are reduced `% 256`. -/
def mkEventPayload (d : EventData) (asserted : Bool) (b7 b8 : Nat) : List Nat :=
  [AMPERE_IANA_BYTE_1, AMPERE_IANA_BYTE_2, AMPERE_IANA_BYTE_3,
   d.eventType % 256, d.eventNum % 256,
   (((if asserted then 0 else 1) <<< 7) ||| d.eventReadType) % 256,
   0xA1, b7 % 256, b8 % 256, 0xFF, 0xFF, 0xFF]

/-- The emission a scan item produces, when the data bit differs from the
snapshot bit (`none` when unchanged). -/
def emitAt? (d : EventData) (cur data : Nat) (it : ScanItem) : Option Emission :=
  if data.testBit it.bit = cur.testBit it.bit then none
  else some ⟨it.bit, data.testBit it.bit,
             mkEventPayload d (data.testBit it.bit) it.b7 it.b8⟩

/-- Core of every event handler: scan the items in order, comparing the data
word against the snapshot `cur` and updating the accumulated mask `m`
(initially the same snapshot) with `| bitMask` on assert and
`& (0xffff - bitMask)` on deassert. -/
def scanEvent (d : EventData) (cur data : Nat) : List ScanItem → Nat → Nat × List Emission
  | [], m => (m, [])
  | it :: rest, m =>
    if data.testBit it.bit ∧ ¬ cur.testBit it.bit then
      let r := scanEvent d cur data rest (m ||| 2 ^ it.bit)
      (r.1, ⟨it.bit, true, mkEventPayload d true it.b7 it.b8⟩ :: r.2)
    else if ¬ data.testBit it.bit ∧ cur.testBit it.bit then
      let r := scanEvent d cur data rest (m &&& (0xffff - 2 ^ it.bit))
      (r.1, ⟨it.bit, false, mkEventPayload d false it.b7 it.b8⟩ :: r.2)
    else scanEvent d cur data rest m

/-- Scanned bits of `logEventVrdWarnFault`: SoC VRD at bit 0, core VRD rails
1-3 at bits 1-3, DIMM VRD rails 1-4 at bits 4-7. -/
def vrdWarnFaultItems (d : EventData) : List ScanItem :=
  [⟨0, (SOC_COMPONENT <<< 4) ||| d.socket, 0⟩,
   ⟨1, (CORE_COMPONENT <<< 4) ||| d.socket, VRD_1⟩,
   ⟨2, (CORE_COMPONENT <<< 4) ||| d.socket, VRD_2⟩,
   ⟨3, (CORE_COMPONENT <<< 4) ||| d.socket, VRD_3⟩,
   ⟨4, (DIMM_COMPONENT <<< 4) ||| d.socket, VRD_1⟩,
   ⟨5, (DIMM_COMPONENT <<< 4) ||| d.socket, VRD_2⟩,
   ⟨6, (DIMM_COMPONENT <<< 4) ||| d.socket, VRD_3⟩,
   ⟨7, (DIMM_COMPONENT <<< 4) ||| d.socket, VRD_4⟩]

/-- Scanned bits of `logEventVrdHot`: SoC VRD at bit 0, core VRD rails 1-3 at
bits 4-6, DIMM VRD rails 1-4 at bits 8-11. -/
def vrdHotItems (d : EventData) : List ScanItem :=
  [⟨0, (SOC_COMPONENT <<< 4) ||| d.socket, 0⟩,
   ⟨4, (CORE_COMPONENT <<< 4) ||| d.socket, VRD_1⟩,
   ⟨5, (CORE_COMPONENT <<< 4) ||| d.socket, VRD_2⟩,
   ⟨6, (CORE_COMPONENT <<< 4) ||| d.socket, VRD_3⟩,
   ⟨8, (DIMM_COMPONENT <<< 4) ||| d.socket, VRD_1⟩,
   ⟨9, (DIMM_COMPONENT <<< 4) ||| d.socket, VRD_2⟩,
   ⟨10, (DIMM_COMPONENT <<< 4) ||| d.socket, VRD_3⟩,
   ⟨11, (DIMM_COMPONENT <<< 4) ||| d.socket, VRD_4⟩]

/-- Scanned bits of `logEventDIMMHot`: all 16 bits (`channel = i % 8`,
`dimmIdx = i / 8`); `bitMask = 2^i` is stored into payload byte 7 for DIMM
index 0 and into byte 8 for DIMM index 1 (an 8-bit store). -/
def dimmHotItems : List ScanItem :=
  (List.range 16).map (fun i => if i < 8 then ⟨i, 2 ^ i, 0⟩ else ⟨i, 0, 2 ^ i⟩)

/-- Scanned bits of `logEventDIMM2xRefresh`: bits 0-7, one per channel; payload
byte 7 is the socket and byte 8 the channel. -/
def dimm2xItems (d : EventData) : List ScanItem :=
  (List.range 8).map (fun c => ⟨c, d.socket, c⟩)

/-- Model of `logEventVrdWarnFault`: new value of `curEventMask[data.idx]` and
the emitted transitions, given the snapshot `cur` and the event data word. -/
def logEventVrdWarnFault (d : EventData) (cur data : Nat) : Nat × List Emission :=
  scanEvent d cur data (vrdWarnFaultItems d) cur

/-- Model of `logEventVrdHot`. -/
def logEventVrdHot (d : EventData) (cur data : Nat) : Nat × List Emission :=
  scanEvent d cur data (vrdHotItems d) cur

/-- Model of `logEventDIMMHot`. -/
def logEventDIMMHot (d : EventData) (cur data : Nat) : Nat × List Emission :=
  scanEvent d cur data dimmHotItems cur

/-- Model of `logEventDIMM2xRefresh`. -/
def logEventDIMM2xRefresh (d : EventData) (cur data : Nat) : Nat × List Emission :=
  scanEvent d cur data (dimm2xItems d) cur

/-- The `switch (eventFields.type)` of `parseAndLogEvents`: dispatch to the
handler for the event type, with the default case doing nothing. -/
def dispatchEvent (t : Nat) (d : EventData) (cur data : Nat) : Nat × List Emission :=
  if t = event_vrd_warn_fault then logEventVrdWarnFault d cur data
  else if t = event_vrd_hot then logEventVrdHot d cur data
  else if t = event_dimm_hot then logEventDIMMHot d cur data
  else if t = event_dimm_2x_refresh then logEventDIMM2xRefresh d cur data
  else (cur, [])

/-- Model of `parseAndLogEvents`: lines with fewer than 2 tokens are dropped
with no output and no state change; otherwise the first token selects the
handler and the second is the 16-bit data word. -/
def parseAndLogEvents (d : EventData) (cur : Nat) (line : List Char) : Nat × List Emission :=
  let toks := tokensOf line
  if toks.length < 2 then (cur, [])
  else dispatchEvent (parseHexStrToUInt8 (toks.getD 0 [])) d cur
         (parseHexStrToUInt16 (toks.getD 1 []))

/-- Feeding a sequence of data words to one row's handler (one call per poll),
threading `curEventMask[idx]` and concatenating the emissions. -/
def feedSeq (t : Nat) (d : EventData) (cur : Nat) : List Nat → Nat × List Emission
  | [] => (cur, [])
  | m :: ms =>
    let r1 := dispatchEvent t d cur m
    let r2 := feedSeq t d r1.1 ms
    (r2.1, r1.2 ++ r2.2)

/-- Scan-item list of the handler selected by event type `t`. -/
def handlerItems (t : Nat) (d : EventData) : List ScanItem :=
  if t = event_vrd_warn_fault then vrdWarnFaultItems d
  else if t = event_vrd_hot then vrdHotItems d
  else if t = event_dimm_hot then dimmHotItems
  else if t = event_dimm_2x_refresh then dimm2xItems d
  else []

/-- Bits scanned by the handler selected by event type `t`. -/
def handlerBits (t : Nat) : List Nat :=
  if t = event_vrd_warn_fault then [0, 1, 2, 3, 4, 5, 6, 7]
  else if t = event_vrd_hot then [0, 4, 5, 6, 8, 9, 10, 11]
  else if t = event_dimm_hot then List.range 16
  else if t = event_dimm_2x_refresh then List.range 8
  else []

/-- Emissions restricted to one bit position. -/
def bitTrace (out : List Emission) (i : Nat) : List Emission :=
  out.filter (fun e => e.bit == i)

/-- Number of asserted emissions minus number of deasserted emissions. -/
def cntDiff (l : List Emission) : Int :=
  ((l.filter (fun e => e.asserted)).length : Int) -
    ((l.filter (fun e => !e.asserted)).length : Int)

/-- Bool-to-Int indicator. -/
def bitInt (b : Bool) : Int := if b then 1 else 0

/-- Alternation property: the emissions of one bit strictly alternate between
assert and deassert. -/
def altChain (l : List Emission) : Prop :=
  List.Chain' (fun a b => a.asserted ≠ b.asserted) l

/-- Row `r` of `errorTypeTable`. -/
def errorRow (r : Fin 20) : ErrorData :=
  errorTypeTable.getD r.1 ⟨0, 0, "", 0, 0, "", ""⟩

/-! ### Bit-level helper lemmas -/

theorem testBit_two_pow_general (b i : Nat) : (2 ^ b).testBit i = decide (b = i) := by
  by_cases h : b = i
  · subst h; simp [Nat.testBit_two_pow_self]
  · simp [Nat.testBit_two_pow_of_ne h, h]

theorem testBit_mask16_clear (b : Nat) (hb : b < 16) (i : Nat) :
    (65535 - 2 ^ b).testBit i = (decide (i < 16) && !(decide (b = i))) := by
  have h : (65535 - 2 ^ b) = (2 ^ 16 - 1) ^^^ 2 ^ b := by
    interval_cases b <;> decide
  rw [h, Nat.testBit_xor, Nat.testBit_two_pow_sub_one, testBit_two_pow_general]
  by_cases hbi : b = i
  · subst hbi; simp [hb]
  · simp [hbi]

theorem testBit_ge_sixteen {m : Nat} (hm : m < 2 ^ 16) {i : Nat} (hi : 16 ≤ i) :
    m.testBit i = false :=
  Nat.testBit_lt_two_pow (lt_of_lt_of_le hm (Nat.pow_le_pow_right (by norm_num) hi))

/-! ### Characterization of the event-handler scan -/

theorem scanEvent_snd (d : EventData) (cur data : Nat) (L : List ScanItem) (m : Nat) :
    (scanEvent d cur data L m).2 = L.filterMap (emitAt? d cur data) := by
  induction L generalizing m with
  | nil => rfl
  | cons it rest ih =>
    by_cases h1 : data.testBit it.bit <;> by_cases h2 : cur.testBit it.bit <;>
      simp [scanEvent, emitAt?, h1, h2, ih]

theorem scanEvent_fst_lt (d : EventData) (cur data : Nat) (L : List ScanItem)
    (hL : ∀ it ∈ L, it.bit < 16) :
    ∀ m : Nat, m < 2 ^ 16 → (scanEvent d cur data L m).1 < 2 ^ 16 := by
  induction L with
  | nil => intro m hm; simpa [scanEvent] using hm
  | cons it rest ih =>
    intro m hm
    have hb : it.bit < 16 := hL it (List.mem_cons_self it rest)
    have hrest : ∀ x ∈ rest, x.bit < 16 := fun x hx => hL x (List.mem_cons_of_mem it hx)
    have hpow : 2 ^ it.bit < 2 ^ 16 := Nat.pow_lt_pow_right (by norm_num) hb
    by_cases h1 : data.testBit it.bit <;> by_cases h2 : cur.testBit it.bit <;>
      simp only [scanEvent, h1, h2, not_true, not_false_iff, true_and, false_and,
        and_true, and_false, if_true, if_false] <;>
      first
        | exact ih hrest _ (Nat.or_lt_two_pow hm hpow)
        | exact ih hrest _ (lt_of_le_of_lt Nat.and_le_left hm)
        | exact ih hrest _ hm

theorem testBit_update_or (m b i : Nat) (hne : b ≠ i) :
    (m ||| 2 ^ b).testBit i = m.testBit i := by
  rw [Nat.testBit_or, testBit_two_pow_general]
  simp [hne]

theorem testBit_update_and (m b i : Nat) (hb : b < 16) (hm : m < 2 ^ 16) (hne : b ≠ i) :
    (m &&& (65535 - 2 ^ b)).testBit i = m.testBit i := by
  rw [Nat.testBit_and, testBit_mask16_clear b hb]
  by_cases hi : i < 16
  · simp [hne, hi]
  · have h0 : m.testBit i = false := testBit_ge_sixteen hm (by omega)
    simp [h0]

theorem testBit_or_self (m b : Nat) : (m ||| 2 ^ b).testBit b = true := by
  rw [Nat.testBit_or, testBit_two_pow_general]; simp

theorem testBit_and_self (m b : Nat) (hb : b < 16) :
    (m &&& (65535 - 2 ^ b)).testBit b = false := by
  rw [Nat.testBit_and, testBit_mask16_clear b hb]; simp

/-- One unfolding step of the state component of `scanEvent`. -/
theorem scanEvent_cons_fst (d : EventData) (cur data : Nat) (it : ScanItem)
    (rest : List ScanItem) (m : Nat) :
    (scanEvent d cur data (it :: rest) m).1 =
      if data.testBit it.bit ∧ ¬ cur.testBit it.bit then
        (scanEvent d cur data rest (m ||| 2 ^ it.bit)).1
      else if ¬ data.testBit it.bit ∧ cur.testBit it.bit then
        (scanEvent d cur data rest (m &&& (65535 - 2 ^ it.bit))).1
      else (scanEvent d cur data rest m).1 := by
  simp only [scanEvent]
  split_ifs <;> rfl

/-- Bits outside the handler's scanned set are never written. -/
theorem scanEvent_fst_testBit_not_mem (d : EventData) (cur data : Nat)
    (L : List ScanItem) (hL : ∀ it ∈ L, it.bit < 16) (i : Nat)
    (hi : ∀ it ∈ L, it.bit ≠ i) :
    ∀ m : Nat, m < 2 ^ 16 → (scanEvent d cur data L m).1.testBit i = m.testBit i := by
  induction L with
  | nil => intro m _; simp [scanEvent]
  | cons it rest ih =>
    intro m hm
    have hb : it.bit < 16 := hL it (List.mem_cons_self it rest)
    have hrest : ∀ x ∈ rest, x.bit < 16 := fun x hx => hL x (List.mem_cons_of_mem it hx)
    have hirest : ∀ x ∈ rest, x.bit ≠ i := fun x hx => hi x (List.mem_cons_of_mem it hx)
    have hne : it.bit ≠ i := hi it (List.mem_cons_self it rest)
    have hpow : 2 ^ it.bit < 2 ^ 16 := Nat.pow_lt_pow_right (by norm_num) hb
    rw [scanEvent_cons_fst]
    by_cases h1 : data.testBit it.bit <;> by_cases h2 : cur.testBit it.bit
    · rw [if_neg (fun h => h.2 h2), if_neg (fun h => h.1 h1)]
      exact ih hrest hirest m hm
    · rw [if_pos ⟨h1, h2⟩]
      exact (ih hrest hirest _ (Nat.or_lt_two_pow hm hpow)).trans
        (testBit_update_or m it.bit i hne)
    · rw [if_neg (fun h => h1 h.1), if_pos ⟨h1, h2⟩]
      exact (ih hrest hirest _ (lt_of_le_of_lt Nat.and_le_left hm)).trans
        (testBit_update_and m it.bit i hb hm hne)
    · rw [if_neg (fun h => h1 h.1), if_neg (fun h => h2 h.2)]
      exact ih hrest hirest m hm

/-- A bit on which the data word agrees with the snapshot is never written,
whether it is scanned or not. -/
theorem scanEvent_fst_testBit_steady (d : EventData) (cur data : Nat)
    (L : List ScanItem) (hL : ∀ it ∈ L, it.bit < 16) (i : Nat)
    (hdc : data.testBit i = cur.testBit i) :
    ∀ m : Nat, m < 2 ^ 16 → (scanEvent d cur data L m).1.testBit i = m.testBit i := by
  induction L with
  | nil => intro m _; simp [scanEvent]
  | cons it rest ih =>
    intro m hm
    have hb : it.bit < 16 := hL it (List.mem_cons_self it rest)
    have hrest : ∀ x ∈ rest, x.bit < 16 := fun x hx => hL x (List.mem_cons_of_mem it hx)
    have hpow : 2 ^ it.bit < 2 ^ 16 := Nat.pow_lt_pow_right (by norm_num) hb
    rw [scanEvent_cons_fst]
    by_cases hbi : it.bit = i
    · subst hbi
      have hno1 : ¬ (data.testBit it.bit ∧ ¬ cur.testBit it.bit) := by
        rw [hdc]; simp
      have hno2 : ¬ (¬ data.testBit it.bit ∧ cur.testBit it.bit) := by
        rw [hdc]; simp
      rw [if_neg hno1, if_neg hno2]
      exact ih hrest m hm
    · by_cases h1 : data.testBit it.bit <;> by_cases h2 : cur.testBit it.bit
      · rw [if_neg (fun h => h.2 h2), if_neg (fun h => h.1 h1)]
        exact ih hrest m hm
      · rw [if_pos ⟨h1, h2⟩]
        exact (ih hrest _ (Nat.or_lt_two_pow hm hpow)).trans
          (testBit_update_or m it.bit i hbi)
      · rw [if_neg (fun h => h1 h.1), if_pos ⟨h1, h2⟩]
        exact (ih hrest _ (lt_of_le_of_lt Nat.and_le_left hm)).trans
          (testBit_update_and m it.bit i hb hm hbi)
      · rw [if_neg (fun h => h1 h.1), if_neg (fun h => h2 h.2)]
        exact ih hrest m hm

/-- A scanned bit on which the data word differs from the snapshot ends up
holding the data bit. -/
theorem scanEvent_fst_testBit_mem (d : EventData) (cur data : Nat)
    (L : List ScanItem) (hL : ∀ it ∈ L, it.bit < 16) (i : Nat)
    (him : ∃ it ∈ L, it.bit = i) (hdc : data.testBit i ≠ cur.testBit i) :
    ∀ m : Nat, m < 2 ^ 16 → (scanEvent d cur data L m).1.testBit i = data.testBit i := by
  induction L with
  | nil => exact absurd him (by simp)
  | cons it rest ih =>
    intro m hm
    have hb : it.bit < 16 := hL it (List.mem_cons_self it rest)
    have hrest : ∀ x ∈ rest, x.bit < 16 := fun x hx => hL x (List.mem_cons_of_mem it hx)
    have hpow : 2 ^ it.bit < 2 ^ 16 := Nat.pow_lt_pow_right (by norm_num) hb
    rw [scanEvent_cons_fst]
    by_cases hbi : it.bit = i
    · subst hbi
      by_cases h1 : data.testBit it.bit <;> by_cases h2 : cur.testBit it.bit
      · exact absurd rfl (by rw [h1, h2] at hdc; exact hdc)
      · rw [if_pos ⟨h1, h2⟩]
        by_cases hrm : ∃ x ∈ rest, x.bit = it.bit
        · exact ih hrest hrm _ (Nat.or_lt_two_pow hm hpow)
        · have hnone : ∀ x ∈ rest, x.bit ≠ it.bit :=
            fun x hx hcontr => hrm ⟨x, hx, hcontr⟩
          rw [scanEvent_fst_testBit_not_mem d cur data rest hrest it.bit hnone _
            (Nat.or_lt_two_pow hm hpow), testBit_or_self, h1]
      · rw [if_neg (fun h => h1 h.1), if_pos ⟨h1, h2⟩]
        by_cases hrm : ∃ x ∈ rest, x.bit = it.bit
        · exact ih hrest hrm _ (lt_of_le_of_lt Nat.and_le_left hm)
        · have hnone : ∀ x ∈ rest, x.bit ≠ it.bit :=
            fun x hx hcontr => hrm ⟨x, hx, hcontr⟩
          rw [scanEvent_fst_testBit_not_mem d cur data rest hrest it.bit hnone _
            (lt_of_le_of_lt Nat.and_le_left hm), testBit_and_self m it.bit hb]
          exact ((Bool.not_eq_true _).mp h1).symm
      · exact absurd rfl (by rw [(Bool.not_eq_true _).mp h1, (Bool.not_eq_true _).mp h2] at hdc; exact hdc)
    · have hrm : ∃ x ∈ rest, x.bit = i := by
        rcases him with ⟨x, hx, hxi⟩
        rcases List.mem_cons.mp hx with rfl | hx'
        · exact absurd hxi hbi
        · exact ⟨x, hx', hxi⟩
      by_cases h1 : data.testBit it.bit <;> by_cases h2 : cur.testBit it.bit
      · rw [if_neg (fun h => h.2 h2), if_neg (fun h => h.1 h1)]
        exact ih hrest hrm m hm
      · rw [if_pos ⟨h1, h2⟩]
        exact ih hrest hrm _ (Nat.or_lt_two_pow hm hpow)
      · rw [if_neg (fun h => h1 h.1), if_pos ⟨h1, h2⟩]
        exact ih hrest hrm _ (lt_of_le_of_lt Nat.and_le_left hm)
      · rw [if_neg (fun h => h1 h.1), if_neg (fun h => h2 h.2)]
        exact ih hrest hrm m hm

/-! ### Dispatch-level lemmas -/

theorem handlerItems_map_bit (t : Nat) (d : EventData) :
    (handlerItems t d).map ScanItem.bit = handlerBits t := by
  unfold handlerItems handlerBits
  split_ifs <;> rfl

theorem dispatchEvent_eq (t : Nat) (d : EventData) (cur data : Nat) :
    dispatchEvent t d cur data = scanEvent d cur data (handlerItems t d) cur := by
  unfold dispatchEvent handlerItems logEventVrdWarnFault logEventVrdHot
    logEventDIMMHot logEventDIMM2xRefresh
  split_ifs <;> rfl

theorem handlerBits_lt16 (t : Nat) : ∀ i ∈ handlerBits t, i < 16 := by
  unfold handlerBits
  split_ifs <;> decide

theorem handlerBits_nodup (t : Nat) : (handlerBits t).Nodup := by
  unfold handlerBits
  split_ifs <;> decide

theorem handlerItems_bit_lt16 (t : Nat) (d : EventData) :
    ∀ it ∈ handlerItems t d, it.bit < 16 := by
  intro it hit
  exact handlerBits_lt16 t it.bit
    (handlerItems_map_bit t d ▸ List.mem_map_of_mem ScanItem.bit hit)

theorem mem_handlerBits_iff (t : Nat) (d : EventData) (i : Nat) :
    i ∈ handlerBits t ↔ ∃ it ∈ handlerItems t d, it.bit = i := by
  rw [← handlerItems_map_bit t d, List.mem_map]

theorem dispatchEvent_fst_lt (t : Nat) (d : EventData) (cur data : Nat)
    (hcur : cur < 2 ^ 16) : (dispatchEvent t d cur data).1 < 2 ^ 16 := by
  rw [dispatchEvent_eq]
  exact scanEvent_fst_lt d cur data (handlerItems t d) (handlerItems_bit_lt16 t d) cur hcur

/-- Per-bit postcondition of one handler call: a scanned bit on which the data
word differs from the snapshot takes the data value, every other bit keeps the
snapshot value. -/
theorem dispatchEvent_fst_testBit (t : Nat) (d : EventData) (cur data : Nat)
    (hcur : cur < 2 ^ 16) (i : Nat) :
    (dispatchEvent t d cur data).1.testBit i =
      if i ∈ handlerBits t ∧ data.testBit i ≠ cur.testBit i
      then data.testBit i else cur.testBit i := by
  rw [dispatchEvent_eq]
  by_cases hdc : data.testBit i = cur.testBit i
  · rw [if_neg (fun h => h.2 hdc)]
    exact scanEvent_fst_testBit_steady d cur data (handlerItems t d)
      (handlerItems_bit_lt16 t d) i hdc cur hcur
  · by_cases him : i ∈ handlerBits t
    · rw [if_pos ⟨him, hdc⟩]
      exact scanEvent_fst_testBit_mem d cur data (handlerItems t d)
        (handlerItems_bit_lt16 t d) i ((mem_handlerBits_iff t d i).mp him) hdc cur hcur
    · rw [if_neg (fun h => him h.1)]
      have hnone : ∀ it ∈ handlerItems t d, it.bit ≠ i := by
        intro it hit hcontr
        exact him ((mem_handlerBits_iff t d i).mpr ⟨it, hit, hcontr⟩)
      exact scanEvent_fst_testBit_not_mem d cur data (handlerItems t d)
        (handlerItems_bit_lt16 t d) i hnone cur hcur

theorem dispatchEvent_snd (t : Nat) (d : EventData) (cur data : Nat) :
    (dispatchEvent t d cur data).2 = (handlerItems t d).filterMap (emitAt? d cur data) := by
  rw [dispatchEvent_eq, scanEvent_snd]

/-- Every emission of one handler call is on a scanned bit, records the data
value of that bit, and only happens when the bit changed. -/
theorem dispatchEvent_mem_emission (t : Nat) (d : EventData) (cur data : Nat)
    (e : Emission) (he : e ∈ (dispatchEvent t d cur data).2) :
    e.bit ∈ handlerBits t ∧ e.asserted = data.testBit e.bit ∧
      data.testBit e.bit ≠ cur.testBit e.bit ∧
      ∃ it ∈ handlerItems t d, it.bit = e.bit ∧
        e.sel = mkEventPayload d (data.testBit e.bit) it.b7 it.b8 := by
  rw [dispatchEvent_snd] at he
  rcases List.mem_filterMap.mp he with ⟨it, hit, hsome⟩
  unfold emitAt? at hsome
  by_cases hdc : data.testBit it.bit = cur.testBit it.bit
  · rw [if_pos hdc] at hsome; cases hsome
  · rw [if_neg hdc] at hsome
    cases hsome
    exact ⟨(mem_handlerBits_iff t d it.bit).mpr ⟨it, hit, rfl⟩, rfl, hdc,
      it, hit, rfl, rfl⟩

/-- Filtering the emissions to one bit commutes with restricting the scan items
to that bit. -/
theorem filter_filterMap_emitAt (d : EventData) (cur data : Nat)
    (L : List ScanItem) (i : Nat) :
    (L.filterMap (emitAt? d cur data)).filter (fun e => e.bit == i) =
      (L.filter (fun it => it.bit == i)).filterMap (emitAt? d cur data) := by
  induction L with
  | nil => rfl
  | cons it rest ih =>
    by_cases hb : it.bit = i
    · subst hb
      by_cases hd : data.testBit it.bit = cur.testBit it.bit <;>
        simp [emitAt?, hd, ih, List.filterMap_cons, List.filter_cons]
    · by_cases hd : data.testBit it.bit = cur.testBit it.bit <;>
        simp [emitAt?, hb, hd, ih, List.filterMap_cons, List.filter_cons]

/-- With pairwise-distinct bits, restricting the scan items to one bit leaves at
most one item. -/
theorem filter_bit_single (L : List ScanItem) (i : Nat)
    (hnd : (L.map ScanItem.bit).Nodup) :
    L.filter (fun it => it.bit == i) = [] ∨
      ∃ it, it.bit = i ∧ L.filter (fun it => it.bit == i) = [it] := by
  induction L with
  | nil => exact Or.inl rfl
  | cons a rest ih =>
    have hnd' : (rest.map ScanItem.bit).Nodup := (List.nodup_cons.mp hnd).2
    have hna : a.bit ∉ rest.map ScanItem.bit := (List.nodup_cons.mp hnd).1
    by_cases hb : a.bit = i
    · subst hb
      have hrest : rest.filter (fun it => it.bit == a.bit) = [] := by
        apply List.filter_eq_nil_iff.mpr
        intro x hx hcontr
        exact hna (List.mem_map.mpr ⟨x, hx, by simpa using hcontr⟩)
      refine Or.inr ⟨a, rfl, ?_⟩
      rw [List.filter_cons_of_pos (by simp), hrest]
    · rw [List.filter_cons_of_neg (by simp [hb])]
      exact ih hnd'

/-- The emissions of one handler call restricted to one bit: empty when the bit
is unscanned or unchanged. -/
theorem dispatchEvent_filter_nil (t : Nat) (d : EventData) (cur data : Nat) (i : Nat)
    (h : ¬ (i ∈ handlerBits t ∧ data.testBit i ≠ cur.testBit i)) :
    ((dispatchEvent t d cur data).2.filter (fun e => e.bit == i)) = [] := by
  rw [dispatchEvent_snd, filter_filterMap_emitAt]
  rcases not_and_or.mp h with h | h
  · have hnil : (handlerItems t d).filter (fun it => it.bit == i) = [] := by
      apply List.filter_eq_nil_iff.mpr
      intro it hit hcontr
      exact h ((mem_handlerBits_iff t d i).mpr ⟨it, hit, by simpa using hcontr⟩)
    rw [hnil]; rfl
  · have hdc : data.testBit i = cur.testBit i := not_not.mp h
    apply List.filterMap_eq_nil_iff.mpr
    intro it hit
    have hbit : it.bit = i := by simpa using (List.mem_filter.mp hit).2
    unfold emitAt?
    rw [if_pos (hbit ▸ hdc)]

/-- The emissions of one handler call restricted to one scanned, changed bit:
exactly one emission, asserted iff the data bit is set. -/
theorem dispatchEvent_filter_single (t : Nat) (d : EventData) (cur data : Nat) (i : Nat)
    (h1 : i ∈ handlerBits t) (h2 : data.testBit i ≠ cur.testBit i) :
    ∃ it : ScanItem, it.bit = i ∧
      ((dispatchEvent t d cur data).2.filter (fun e => e.bit == i)) =
        [⟨i, data.testBit i, mkEventPayload d (data.testBit i) it.b7 it.b8⟩] := by
  rw [dispatchEvent_snd, filter_filterMap_emitAt]
  have hnd : ((handlerItems t d).map ScanItem.bit).Nodup := by
    rw [handlerItems_map_bit]; exact handlerBits_nodup t
  rcases filter_bit_single (handlerItems t d) i hnd with hnil | ⟨it, hbit, heq⟩
  · exfalso
    rcases (mem_handlerBits_iff t d i).mp h1 with ⟨it, hit, hbit⟩
    have hmem : it ∈ (handlerItems t d).filter (fun it => it.bit == i) :=
      List.mem_filter.mpr ⟨hit, by simpa using hbit⟩
    rw [hnil] at hmem
    cases hmem
  · refine ⟨it, hbit, ?_⟩
    rw [heq]
    subst hbit
    simp [emitAt?, h2]

/-! ### Per-bit traces over a sequence of polls -/

theorem cntDiff_cons (e : Emission) (l : List Emission) :
    cntDiff (e :: l) = (if e.asserted then 1 else -1) + cntDiff l := by
  by_cases h : e.asserted <;>
    simp [cntDiff, List.filter_cons, h] <;> ring

theorem bool_ne_flip {a b : Bool} (h : a ≠ b) : b = !a := by
  cases a <;> cases b <;> simp_all

theorem feedSeq_cons (t : Nat) (d : EventData) (s m : Nat) (ms : List Nat) :
    feedSeq t d s (m :: ms) =
      ((feedSeq t d (dispatchEvent t d s m).1 ms).1,
       (dispatchEvent t d s m).2 ++ (feedSeq t d (dispatchEvent t d s m).1 ms).2) := rfl

theorem feedSeq_append (t : Nat) (d : EventData) (ms1 : List Nat) :
    ∀ (ms2 : List Nat) (s : Nat),
    feedSeq t d s (ms1 ++ ms2) =
      ((feedSeq t d (feedSeq t d s ms1).1 ms2).1,
       (feedSeq t d s ms1).2 ++ (feedSeq t d (feedSeq t d s ms1).1 ms2).2) := by
  induction ms1 with
  | nil => intro ms2 s; simp [feedSeq]
  | cons m ms ih =>
    intro ms2 s
    rw [List.cons_append, feedSeq_cons, feedSeq_cons, ih]
    simp [List.append_assoc]

theorem feedSeq_fst_lt (t : Nat) (d : EventData) :
    ∀ (ms : List Nat) (s : Nat), s < 2 ^ 16 → (feedSeq t d s ms).1 < 2 ^ 16 := by
  intro ms
  induction ms with
  | nil => intro s hs; simpa [feedSeq] using hs
  | cons m ms ih =>
    intro s hs
    rw [feedSeq_cons]
    exact ih _ (dispatchEvent_fst_lt t d s m hs)

/-- Trace invariant over a sequence of polls of one row: for every bit, the
per-bit emission trace alternates strictly, its first emission flips the
initial state bit, its last emission equals the final state bit, and its
assert/deassert count difference telescopes between the initial and final
state bits. -/
theorem feedSeq_trace (t : Nat) (d : EventData) (i : Nat) :
    ∀ (ms : List Nat) (s : Nat), s < 2 ^ 16 →
      altChain (bitTrace (feedSeq t d s ms).2 i) ∧
      (∀ e, (bitTrace (feedSeq t d s ms).2 i).head? = some e →
         e.asserted = !(s.testBit i)) ∧
      ((bitTrace (feedSeq t d s ms).2 i).getLast?.map Emission.asserted).getD
         (s.testBit i) = (feedSeq t d s ms).1.testBit i ∧
      cntDiff (bitTrace (feedSeq t d s ms).2 i) =
        bitInt ((feedSeq t d s ms).1.testBit i) - bitInt (s.testBit i) := by
  intro ms
  induction ms with
  | nil =>
    intro s hs
    refine ⟨?_, ?_, ?_, ?_⟩ <;> simp [feedSeq, bitTrace, altChain, cntDiff]
  | cons m ms ih =>
    intro s hs
    have hs' : (dispatchEvent t d s m).1 < 2 ^ 16 := dispatchEvent_fst_lt t d s m hs
    obtain ⟨ihA, ihH, ihL, ihC⟩ := ih (dispatchEvent t d s m).1 hs'
    rw [feedSeq_cons]
    by_cases hcond : i ∈ handlerBits t ∧ m.testBit i ≠ s.testBit i
    · obtain ⟨it, hbit, htr1⟩ := dispatchEvent_filter_single t d s m i hcond.1 hcond.2
      have hsb : s.testBit i = !(m.testBit i) := bool_ne_flip hcond.2
      have hs'b : (dispatchEvent t d s m).1.testBit i = m.testBit i := by
        rw [dispatchEvent_fst_testBit t d s m hs i, if_pos hcond]
      have htr : bitTrace ((dispatchEvent t d s m).2 ++
            (feedSeq t d (dispatchEvent t d s m).1 ms).2) i =
          (⟨i, m.testBit i, mkEventPayload d (m.testBit i) it.b7 it.b8⟩ : Emission) ::
            bitTrace (feedSeq t d (dispatchEvent t d s m).1 ms).2 i := by
        unfold bitTrace
        rw [List.filter_append, htr1, List.singleton_append]
      refine ⟨?_, ?_, ?_, ?_⟩
      · unfold altChain at ihA ⊢
        rw [htr, List.chain'_cons']
        refine ⟨?_, ihA⟩
        intro b hb
        have hb' := ihH b hb
        rw [hb', hs'b]
        simp
      · intro e' he'
        rw [htr, List.head?_cons] at he'
        cases he'
        rw [hsb, Bool.not_not]
      · rw [htr]
        cases htr2 : bitTrace (feedSeq t d (dispatchEvent t d s m).1 ms).2 i with
        | nil =>
          rw [htr2] at ihL
          have hfin : (feedSeq t d (dispatchEvent t d s m).1 ms).1.testBit i =
              m.testBit i := by
            rw [← ihL]; simp [hs'b]
          rw [hfin]
          simp
        | cons b l =>
          rw [htr2] at ihL
          rw [List.getLast?_cons_cons]
          have hsome : (b :: l).getLast? = some ((b :: l).getLast (by simp)) :=
            List.getLast?_eq_getLast _ (by simp)
          rw [hsome] at ihL ⊢
          simpa using ihL
      · rw [htr, cntDiff_cons, ihC, hs'b, hsb]
        cases hmb : m.testBit i <;> simp [bitInt] <;> ring
    · have htr1 : ((dispatchEvent t d s m).2.filter (fun e => e.bit == i)) = [] :=
        dispatchEvent_filter_nil t d s m i hcond
      have hs'b : (dispatchEvent t d s m).1.testBit i = s.testBit i := by
        rw [dispatchEvent_fst_testBit t d s m hs i, if_neg hcond]
      have htr : bitTrace ((dispatchEvent t d s m).2 ++
            (feedSeq t d (dispatchEvent t d s m).1 ms).2) i =
          bitTrace (feedSeq t d (dispatchEvent t d s m).1 ms).2 i := by
        unfold bitTrace
        rw [List.filter_append, htr1, List.nil_append]
      rw [htr]
      rw [hs'b] at ihH ihL ihC
      exact ⟨ihA, ihH, ihL, ihC⟩

/-! ### Claim theorems: event state tracker -/

theorem mkEventPayload_getD_7 (d : EventData) (a : Bool) (b7 b8 : Nat) :
    (mkEventPayload d a b7 b8).getD 7 0xFF = b7 % 256 := rfl

theorem mkEventPayload_getD_8 (d : EventData) (a : Bool) (b7 b8 : Nat) :
    (mkEventPayload d a b7 b8).getD 8 0xFF = b8 % 256 := rfl

/-- C1: De-duplication / idempotent steady state.  For every event-type table
row `r` and every 16-bit mask `m`, calling the handler selected for `r` twice
in a row with the same mask (with no intervening call for `r`) makes the second
call emit zero SEL records and zero Redfish alert records (each `Emission` is
exactly one SEL record plus one Redfish record, so an empty emission list is
both) and leave `curEventMask[r]` unchanged. -/
theorem claim_c1_dedup (r : Fin 8) (cur m : Nat) (hcur : cur < 2 ^ 16)
    (hm : m < 2 ^ 16) :
    (dispatchEvent (eventRow r).intEventType (eventRow r)
      (dispatchEvent (eventRow r).intEventType (eventRow r) cur m).1 m).2 = [] ∧
    (dispatchEvent (eventRow r).intEventType (eventRow r)
      (dispatchEvent (eventRow r).intEventType (eventRow r) cur m).1 m).1 =
      (dispatchEvent (eventRow r).intEventType (eventRow r) cur m).1 := by
  set t := (eventRow r).intEventType
  set d := eventRow r
  set s1 := (dispatchEvent t d cur m).1 with hs1def
  have hs1 : s1 < 2 ^ 16 := dispatchEvent_fst_lt t d cur m hcur
  have hsteady : ∀ i ∈ handlerBits t, s1.testBit i = m.testBit i := by
    intro i hi
    rw [hs1def, dispatchEvent_fst_testBit t d cur m hcur i]
    by_cases hdc : m.testBit i = cur.testBit i
    · rw [if_neg (fun h => h.2 hdc)]
      exact hdc.symm
    · rw [if_pos ⟨hi, hdc⟩]
  constructor
  · rw [dispatchEvent_snd]
    apply List.filterMap_eq_nil_iff.mpr
    intro it hit
    unfold emitAt?
    rw [if_pos
      ((hsteady it.bit ((mem_handlerBits_iff t d it.bit).mpr ⟨it, hit, rfl⟩)).symm)]
  · apply Nat.eq_of_testBit_eq
    intro i
    rw [dispatchEvent_fst_testBit t d s1 m hs1 i,
      if_neg (fun h : _ ∧ m.testBit i ≠ s1.testBit i => h.2 (hsteady i h.1).symm)]

theorem claim_c1_dedup_witness :
    (dispatchEvent (eventRow 1).intEventType (eventRow 1)
      (dispatchEvent (eventRow 1).intEventType (eventRow 1) 0 3).1 3).2 = [] ∧
    (dispatchEvent (eventRow 1).intEventType (eventRow 1)
      (dispatchEvent (eventRow 1).intEventType (eventRow 1) 0 3).1 3).1 =
      (dispatchEvent (eventRow 1).intEventType (eventRow 1) 0 3).1 :=
  claim_c1_dedup 1 0 3 (by norm_num) (by norm_num)

/-- C2, counterexample to the claim as stated.  The claim asserts that, feeding
row `r`'s handler the sequence `m0, …, mk` from `curEventMask[r] = 0`, the
number of asserted minus deasserted transitions per bit equals the net change
of that bit between `m0` and `mk`.  For row 1 (VRD-hot, socket 0), the
one-element sequence `m0 = mk = 1` and bit 0, the handler emits one asserted
transition (count difference 1), while the net change of bit 0 between `m0`
and `mk` is 0. -/
theorem claim_c2_counterexample :
    cntDiff (bitTrace
      (feedSeq (eventRow 1).intEventType (eventRow 1) 0 [1]).2 0) = 1 ∧
    bitInt ((1 : Nat).testBit 0) - bitInt ((1 : Nat).testBit 0) = 0 ∧
    (1 : Int) ≠ 0 := by
  decide

/-- C2, amended: with the sequence fed from the all-clear initial state, the
per-bit emission traces alternate strictly between assert and deassert, and for
every scanned bit the number of asserted minus deasserted transitions equals
the net change of the bit between the initial state 0 and the final mask `mk`
(that is, `bit i of mk` minus `bit i of 0`). -/
theorem claim_c2_monotone (r : Fin 8) (ms : List Nat) (mk : Nat)
    (hms : ∀ x ∈ ms, x < 2 ^ 16) (hmk : mk < 2 ^ 16) :
    (∀ i, altChain (bitTrace
      (feedSeq (eventRow r).intEventType (eventRow r) 0 (ms ++ [mk])).2 i)) ∧
    (∀ i ∈ handlerBits (eventRow r).intEventType,
      cntDiff (bitTrace
        (feedSeq (eventRow r).intEventType (eventRow r) 0 (ms ++ [mk])).2 i) =
        bitInt (mk.testBit i) - bitInt ((0 : Nat).testBit i)) := by
  set t := (eventRow r).intEventType
  set d := eventRow r
  have h0 : (0 : Nat) < 2 ^ 16 := by norm_num
  constructor
  · intro i
    exact (feedSeq_trace t d i (ms ++ [mk]) 0 h0).1
  · intro i hi
    have hcnt := (feedSeq_trace t d i (ms ++ [mk]) 0 h0).2.2.2
    have hmid : (feedSeq t d 0 ms).1 < 2 ^ 16 := feedSeq_fst_lt t d ms 0 h0
    have hfin : (feedSeq t d 0 (ms ++ [mk])).1.testBit i = mk.testBit i := by
      rw [feedSeq_append t d ms [mk] 0]
      show (feedSeq t d (feedSeq t d 0 ms).1 [mk]).1.testBit i = mk.testBit i
      rw [feedSeq_cons]
      show (feedSeq t d (dispatchEvent t d (feedSeq t d 0 ms).1 mk).1 []).1.testBit i
          = mk.testBit i
      show (dispatchEvent t d (feedSeq t d 0 ms).1 mk).1.testBit i = mk.testBit i
      rw [dispatchEvent_fst_testBit t d _ mk hmid i]
      by_cases hdc : mk.testBit i = (feedSeq t d 0 ms).1.testBit i
      · rw [if_neg (fun h => h.2 hdc)]
        exact hdc.symm
      · rw [if_pos ⟨hi, hdc⟩]
    rw [hcnt, hfin]

theorem claim_c2_monotone_witness :
    (∀ i, altChain (bitTrace
      (feedSeq (eventRow 1).intEventType (eventRow 1) 0 ([] ++ [3])).2 i)) ∧
    (∀ i ∈ handlerBits (eventRow 1).intEventType,
      cntDiff (bitTrace
        (feedSeq (eventRow 1).intEventType (eventRow 1) 0 ([] ++ [3])).2 i) =
        bitInt ((3 : Nat).testBit i) - bitInt ((0 : Nat).testBit i)) :=
  claim_c2_monotone 1 [] 3 (by simp) (by norm_num)

/-- C5: VRD-hot binary packing.  An assert transition of bit 4 (core VRD rail
1) on the socket-0 VRD-hot row produces a SEL payload with byte 7 equal to
`CORE_COMPONENT << 4 | 0 = 0x10` and byte 8 equal to `VRD_1 = 0x01`; an assert
transition of bit 8 (DIMM VRD rail 1) on the socket-1 VRD-hot row produces
byte 7 = `DIMM_COMPONENT << 4 | 1 = 0x21` and byte 8 = `0x01`. -/
theorem claim_c5_packing (cur data cur' data' : Nat)
    (hcur : cur < 2 ^ 16) (hcur' : cur' < 2 ^ 16)
    (h1 : cur.testBit 4 = false) (h2 : data.testBit 4 = true)
    (h3 : cur'.testBit 8 = false) (h4 : data'.testBit 8 = true) :
    (∃ e ∈ (logEventVrdHot (eventRow 1) cur data).2, e.bit = 4 ∧
      e.asserted = true ∧ e.sel.getD 7 0xFF = 0x10 ∧ e.sel.getD 8 0xFF = 0x01) ∧
    (∃ e ∈ (logEventVrdHot (eventRow 4) cur' data').2, e.bit = 8 ∧
      e.asserted = true ∧ e.sel.getD 7 0xFF = 0x21 ∧ e.sel.getD 8 0xFF = 0x01) := by
  constructor
  · obtain ⟨it, hbit, heq⟩ :=
      dispatchEvent_filter_single event_vrd_hot (eventRow 1) cur data 4
        (by decide) (by rw [h1, h2]; simp)
    have hmem : (⟨4, data.testBit 4,
        mkEventPayload (eventRow 1) (data.testBit 4) it.b7 it.b8⟩ : Emission) ∈
        (dispatchEvent event_vrd_hot (eventRow 1) cur data).2 := by
      apply List.mem_of_mem_filter (p := fun e => e.bit == (4 : Nat))
      rw [heq]
      exact List.mem_singleton.mpr rfl
    obtain ⟨_, hass, _, it', hit', hbit', hsel'⟩ :=
      dispatchEvent_mem_emission event_vrd_hot (eventRow 1) cur data _ hmem
    have hb78 : it'.b7 = 0x10 ∧ it'.b8 = 0x01 := by
      have : ∀ x ∈ handlerItems event_vrd_hot (eventRow 1), x.bit = 4 →
          x.b7 = 0x10 ∧ x.b8 = 0x01 := by decide
      exact this it' hit' hbit'
    refine ⟨_, hmem, rfl, by simpa using h2, ?_, ?_⟩
    · rw [hsel', hb78.1, hb78.2, mkEventPayload_getD_7]
    · rw [hsel', hb78.1, hb78.2, mkEventPayload_getD_8]
  · obtain ⟨it, hbit, heq⟩ :=
      dispatchEvent_filter_single event_vrd_hot (eventRow 4) cur' data' 8
        (by decide) (by rw [h3, h4]; simp)
    have hmem : (⟨8, data'.testBit 8,
        mkEventPayload (eventRow 4) (data'.testBit 8) it.b7 it.b8⟩ : Emission) ∈
        (dispatchEvent event_vrd_hot (eventRow 4) cur' data').2 := by
      apply List.mem_of_mem_filter (p := fun e => e.bit == (8 : Nat))
      rw [heq]
      exact List.mem_singleton.mpr rfl
    obtain ⟨_, hass, _, it', hit', hbit', hsel'⟩ :=
      dispatchEvent_mem_emission event_vrd_hot (eventRow 4) cur' data' _ hmem
    have hb78 : it'.b7 = 0x21 ∧ it'.b8 = 0x01 := by
      have : ∀ x ∈ handlerItems event_vrd_hot (eventRow 4), x.bit = 8 →
          x.b7 = 0x21 ∧ x.b8 = 0x01 := by decide
      exact this it' hit' hbit'
    refine ⟨_, hmem, rfl, by simpa using h4, ?_, ?_⟩
    · rw [hsel', hb78.1, hb78.2, mkEventPayload_getD_7]
    · rw [hsel', hb78.1, hb78.2, mkEventPayload_getD_8]

theorem claim_c5_packing_witness :
    (∃ e ∈ (logEventVrdHot (eventRow 1) 0 0x10).2, e.bit = 4 ∧
      e.asserted = true ∧ e.sel.getD 7 0xFF = 0x10 ∧ e.sel.getD 8 0xFF = 0x01) ∧
    (∃ e ∈ (logEventVrdHot (eventRow 4) 0 0x100).2, e.bit = 8 ∧
      e.asserted = true ∧ e.sel.getD 7 0xFF = 0x21 ∧ e.sel.getD 8 0xFF = 0x01) :=
  claim_c5_packing 0 0x10 0 0x100 (by norm_num) (by norm_num)
    (by decide) (by decide) (by decide) (by decide)

/-- C9: DIMM-hot payload truncation for DIMM index 1.  For every transition of
a bit `8 ≤ i ≤ 15` the 16-bit `bitMask = 2^i` is stored into the 8-bit payload
byte 8, so byte 7 is 0 and byte 8 is `2^i mod 256 = 0`, and the whole 12-byte
SEL payload is a function of the row descriptor and the direction alone; it is
therefore identical across channels 0-7 of DIMM index 1 and does not identify
which channel transitioned. -/
theorem claim_c9_dimmhot_truncation (d : EventData) (cur data : Nat)
    (e : Emission) (he : e ∈ (logEventDIMMHot d cur data).2) (hbit : 8 ≤ e.bit) :
    e.sel.getD 7 0xFF = 0 ∧ e.sel.getD 8 0xFF = 0 ∧
    e.sel = mkEventPayload d e.asserted 0 0 := by
  have he' : e ∈ (dispatchEvent event_dimm_hot d cur data).2 := he
  obtain ⟨hbits, hass, _, it, hit, hbite, hsel⟩ :=
    dispatchEvent_mem_emission event_dimm_hot d cur data e he'
  have hitems : ∀ x ∈ dimmHotItems, 8 ≤ x.bit → x.b7 = 0 ∧ x.b8 = 2 ^ x.bit := by
    decide
  have hit' : it ∈ dimmHotItems := hit
  have hb78 := hitems it hit' (hbite ▸ hbit)
  have hmod : (2 : Nat) ^ it.bit % 256 = 0 := by
    have hdvd : (256 : Nat) ∣ 2 ^ it.bit := by
      have h8 : (2 : Nat) ^ 8 ∣ 2 ^ it.bit := pow_dvd_pow 2 (hbite ▸ hbit)
      simpa using h8
    exact Nat.mod_eq_zero_of_dvd hdvd
  have hpay : e.sel = mkEventPayload d e.asserted 0 0 := by
    rw [hsel, ← hass, hb78.1, hb78.2]
    simp [mkEventPayload, hmod]
  refine ⟨?_, ?_, hpay⟩
  · rw [hpay, mkEventPayload_getD_7]
  · rw [hpay, mkEventPayload_getD_8]

theorem claim_c9_dimmhot_truncation_witness :
    ((⟨8, true, mkEventPayload (eventRow 2) true 0 256⟩ : Emission).sel.getD 7 0xFF = 0 ∧
     (⟨8, true, mkEventPayload (eventRow 2) true 0 256⟩ : Emission).sel.getD 8 0xFF = 0 ∧
     (⟨8, true, mkEventPayload (eventRow 2) true 0 256⟩ : Emission).sel =
       mkEventPayload (eventRow 2) true 0 0) :=
  claim_c9_dimmhot_truncation (eventRow 2) 0 0x100
    ⟨8, true, mkEventPayload (eventRow 2) true 0 256⟩ (by decide) (by decide)

/-- C10: VRD-hot frame property.  The VRD-hot handler scans only bits
`{0, 4, 5, 6, 8, 9, 10, 11}`; for every input word, a bit in
`{1, 2, 3, 7, 12, 13, 14, 15}` never produces an emitted record, and those bit
positions of `curEventMask[row]` are left exactly unchanged by the call. -/
theorem claim_c10_vrdhot_frame (d : EventData) (cur data : Nat)
    (hcur : cur < 2 ^ 16) (i : Nat)
    (hi : i ∈ [1, 2, 3, 7, 12, 13, 14, 15]) :
    (∀ e ∈ (logEventVrdHot d cur data).2, e.bit ≠ i) ∧
    (logEventVrdHot d cur data).1.testBit i = cur.testBit i := by
  have hnotin : i ∉ handlerBits event_vrd_hot := by
    fin_cases hi <;> decide
  constructor
  · intro e he hcontr
    have he' : e ∈ (dispatchEvent event_vrd_hot d cur data).2 := he
    obtain ⟨hbits, _, _, _⟩ :=
      dispatchEvent_mem_emission event_vrd_hot d cur data e he'
    exact hnotin (hcontr ▸ hbits)
  · show (dispatchEvent event_vrd_hot d cur data).1.testBit i = cur.testBit i
    rw [dispatchEvent_fst_testBit event_vrd_hot d cur data hcur i,
      if_neg (fun h => hnotin h.1)]

theorem claim_c10_vrdhot_frame_witness :
    (∀ e ∈ (logEventVrdHot (eventRow 1) 0 0xFFFF).2, e.bit ≠ 7) ∧
    (logEventVrdHot (eventRow 1) 0 0xFFFF).1.testBit 7 = (0 : Nat).testBit 7 :=
  claim_c10_vrdhot_frame (eventRow 1) 0 0xFFFF (by norm_num) 7 (by decide)

/-! ### Helpers for the error-classifier claims -/

theorem parseHexStrToUInt8_lt (s : List Char) : parseHexStrToUInt8 s < 2 ^ 8 := by
  show (if (strtoul16 s).2 ≠ [] then 0 else (strtoul16 s).1 % 2 ^ 8) < 2 ^ 8
  split
  · norm_num
  · exact Nat.mod_lt _ (by norm_num)

theorem parseHexStrToUInt16_lt (s : List Char) : parseHexStrToUInt16 s < 2 ^ 16 := by
  show (if (strtoul16 s).2 ≠ [] then 0 else (strtoul16 s).1 % 2 ^ 16) < 2 ^ 16
  split
  · norm_num
  · exact Nat.mod_lt _ (by norm_num)

theorem parseHexStrToUInt32_lt (s : List Char) : parseHexStrToUInt32 s < 2 ^ 32 := by
  show (if (strtoul16 s).2 ≠ [] then 0 else (strtoul16 s).1 % 2 ^ 32) < 2 ^ 32
  split
  · norm_num
  · exact Nat.mod_lt _ (by norm_num)

theorem parseHexStrToUInt64_lt (s : List Char) : parseHexStrToUInt64 s < 2 ^ 64 := by
  show (if (strtoul16 s).2 ≠ [] then 0 else (strtoul16 s).1 % 2 ^ 64) < 2 ^ 64
  split
  · norm_num
  · exact Nat.mod_lt _ (by norm_num)

theorem busFields_errType (d : ErrorData) (toks : List (List Char)) :
    (busFields d toks).errType = parseHexStrToUInt8 (toks.getD 0 []) := rfl

theorem busFields_subType (d : ErrorData) (toks : List (List Char)) :
    (busFields d toks).subType = parseHexStrToUInt8 (toks.getD 1 []) := rfl

theorem busFields_inst_sentinel (d : ErrorData) (toks : List (List Char))
    (h0 : parseHexStrToUInt8 (toks.getD 0 []) = 0xff)
    (h1 : parseHexStrToUInt8 (toks.getD 1 []) = 0xff) :
    (busFields d toks).inst = d.socket <<< 14 := by
  show (if parseHexStrToUInt8 (toks.getD 0 []) = 0xff ∧
        parseHexStrToUInt8 (toks.getD 1 []) = 0xff
      then d.socket <<< 14 else parseHexStrToUInt16 (toks.getD 2 [])) = d.socket <<< 14
  rw [if_pos ⟨h0, h1⟩]

theorem temp_eq_ffff_iff (a b : Nat) (ha : a < 256) (hb : b < 256) :
    (a <<< 8) + b = 0xffff ↔ (a = 0xff ∧ b = 0xff) := by
  rw [Nat.shiftLeft_eq]
  norm_num
  omega

/-- The marker flag of `logErrorToRedfish` outside the overflow path. -/
theorem logErrorToRedfish_snd (d : ErrorData) (f : ErrorFields)
    (htemp : (f.errType <<< 8) + f.subType ≠ 0xffff) :
    (logErrorToRedfish d f).2 =
      decide (d.intErrorType = errors_core_ue ∨ d.intErrorType = errors_mem_ue ∨
        d.intErrorType = errors_pcie_ue ∨ d.intErrorType = errors_other_ue) := by
  unfold logErrorToRedfish
  rw [if_neg htemp]

/-- `logErrorToRedfish` on the overflow occurrence key `0xffff`: one Redfish
submission through the overflow path, and no fault-marker creation. -/
theorem logErrorToRedfish_overflow (d : ErrorData) (f : ErrorFields)
    (h0 : f.errType = 0xff) (h1 : f.subType = 0xff) :
    logErrorToRedfish d f =
      ([RMsg.overflow "OpenBMC.0.1.AmpereCritical.Critical"
         (d.errName ++ ": " ++ "Overflow")
         (occurMsg ⟨255, 255, 1, "Overflow", "Socket%s"⟩
           ((f.inst &&& 0xc000) >>> 14) (f.inst &&& 0x3fff))], false) := by
  have htemp : (f.errType <<< 8) + f.subType = 0xffff := by
    rw [h0, h1]
    decide
  have hmap : mapLookup 0xffff = some ⟨255, 255, 1, "Overflow", "Socket%s"⟩ := by
    decide
  simp only [logErrorToRedfish, htemp, hmap]
  simp

theorem parseAndLogErrors_long (d : ErrorData) (line : List Char)
    (hlen : ¬ ((tokensOf line).length < 5)) :
    parseAndLogErrors d line =
      ⟨[logErrorToIpmiSEL d (busFields d (tokensOf line))],
       (logErrorToRedfish d (busFields d (tokensOf line))).1,
       (logErrorToRedfish d (busFields d (tokensOf line))).2⟩ := by
  unfold parseAndLogErrors
  rw [if_neg hlen]

/-! ### Claim theorems: error classifier and parser -/

/-- C3, counterexample to the claim as stated.  The claim asserts that every
UE-category record passing the minimum-token check triggers creation of the
fault marker, including the overflow-sentinel records (`errType == 0xff`,
`subType == 0xff`).  Processing the sentinel line under the socket-0
`errors_core_ue` descriptor takes the early-return overflow path of
`logErrorToRedfish`, which returns before the marker-creation code, so no
marker is created. -/
theorem claim_c3_counterexample :
    (errorRow 0).intErrorType = errors_core_ue ∧
    (tokensOf ("ff ff 0000 00000000 0000000000000000".toList)).length = 5 ∧
    (parseAndLogErrors (errorRow 0)
      ("ff ff 0000 00000000 0000000000000000".toList)).marker = false := by
  decide

/-- C3, amended: every bus-error record processed under a UE-category
descriptor that passes the minimum-token check and is not the overflow
sentinel (`errType == 0xff && subType == 0xff`) triggers creation of the
fault marker `/tmp/fault_RAS_UE`; sentinel records return through the overflow
path without touching the marker. -/
theorem claim_c3_ue_marker (d : ErrorData) (line : List Char)
    (hue : d.intErrorType = errors_core_ue ∨ d.intErrorType = errors_mem_ue ∨
           d.intErrorType = errors_pcie_ue ∨ d.intErrorType = errors_other_ue)
    (hlen : ¬ ((tokensOf line).length < 5))
    (hsent : ¬ (parseHexStrToUInt8 ((tokensOf line).getD 0 []) = 0xff ∧
                parseHexStrToUInt8 ((tokensOf line).getD 1 []) = 0xff)) :
    (parseAndLogErrors d line).marker = true := by
  rw [parseAndLogErrors_long d line hlen]
  show (logErrorToRedfish d (busFields d (tokensOf line))).2 = true
  have htemp : ((busFields d (tokensOf line)).errType <<< 8) +
      (busFields d (tokensOf line)).subType ≠ 0xffff := by
    rw [busFields_errType, busFields_subType]
    intro hcontr
    exact hsent ((temp_eq_ffff_iff _ _ (parseHexStrToUInt8_lt _)
      (parseHexStrToUInt8_lt _)).mp hcontr)
  rw [logErrorToRedfish_snd d _ htemp]
  exact decide_eq_true hue

theorem claim_c3_ue_marker_witness :
    (parseAndLogErrors (errorRow 1)
      ("01 01 0000 00000000 00000000".toList)).marker = true :=
  claim_c3_ue_marker (errorRow 1) ("01 01 0000 00000000 00000000".toList)
    (by decide) (by decide) (by decide)

/-- C4: evaluation of the memory-error decode.  The code declares `row` and
`col` as `u_int8_t`, so the decoded values `(misc0>>10)&0x3FFFF` and
`((misc0&0x3FF)<<3)` are truncated modulo 256 before being reported: for
`misc0 = 0x3ff` the claimed column value is 8184 but the code reports 248, and
for `misc0 = 0x3ffff << 10` the claimed row value is 262143 but the code
reports 255.  At the documented input `misc0 = 0x0000000100000400` the decode
reports `bank = 1`, `row = 1`, `col = 0`, matching the hand-computed values. -/
theorem claim_c4_mem_decode_eval :
    (parseAndLogErrors (errorRow 1)
        ("01 01 0000 00000000 00000000 3ff 0 0 0".toList)).redfish.getD 1
        (RMsg.core "" "") =
      RMsg.memExtECC "OpenBMC.0.1.MemoryExtendedECCUEData.Critical" 0 0 248 ∧
    (((0x3ff : Nat) &&& 0x3ff) <<< 3) = 8184 ∧ (248 : Nat) ≠ 8184 ∧
    (parseAndLogErrors (errorRow 1)
        ("01 01 0000 00000000 00000000 ffffc00 0 0 0".toList)).redfish.getD 1
        (RMsg.core "" "") =
      RMsg.memExtECC "OpenBMC.0.1.MemoryExtendedECCUEData.Critical" 0 255 0 ∧
    (((0xffffc00 : Nat) >>> 10) &&& 0x3ffff) = 262143 ∧ (255 : Nat) ≠ 262143 ∧
    (parseAndLogErrors (errorRow 1)
        ("01 01 0000 00000000 00000000 0000000100000400 0 0 0".toList)).redfish.getD 1
        (RMsg.core "" "") =
      RMsg.memExtECC "OpenBMC.0.1.MemoryExtendedECCUEData.Critical" 1 1 0 := by
  decide

/-- C6: overflow sentinel.  A bus-error line whose parsed `errType` and
`subType` are both `0xff`, processed under a descriptor with socket 1, has its
instance field replaced by `1 << 14 = 0x4000`, and classification routes to the
overflow path keyed by the `0xffff` occurrence-table entry (whose lookup
succeeds, yielding the "Overflow" entry). -/
theorem claim_c6_overflow (d : ErrorData) (line : List Char)
    (hsock : d.socket = 1) (hlen : ¬ ((tokensOf line).length < 5))
    (ht0 : parseHexStrToUInt8 ((tokensOf line).getD 0 []) = 0xff)
    (ht1 : parseHexStrToUInt8 ((tokensOf line).getD 1 []) = 0xff) :
    (busFields d (tokensOf line)).inst = 0x4000 ∧
    (parseAndLogErrors d line).redfish =
      [RMsg.overflow "OpenBMC.0.1.AmpereCritical.Critical"
        (d.errName ++ ": " ++ "Overflow") "Socket1"] ∧
    mapLookup 0xffff = some ⟨255, 255, 1, "Overflow", "Socket%s"⟩ := by
  have hinst : (busFields d (tokensOf line)).inst = 0x4000 := by
    rw [busFields_inst_sentinel d (tokensOf line) ht0 ht1, hsock]
    decide
  have hac : (busFields d (tokensOf line)).errType = 0xff := by
    rw [busFields_errType]; exact ht0
  have hbc : (busFields d (tokensOf line)).subType = 0xff := by
    rw [busFields_subType]; exact ht1
  refine ⟨hinst, ?_, by decide⟩
  rw [parseAndLogErrors_long d line hlen]
  show (logErrorToRedfish d (busFields d (tokensOf line))).1 = _
  rw [logErrorToRedfish_overflow d _ hac hbc, hinst]
  have hocc : occurMsg ⟨255, 255, 1, "Overflow", "Socket%s"⟩
      (((0x4000 : Nat) &&& 0xc000) >>> 14) ((0x4000 : Nat) &&& 0x3fff) =
      "Socket1" := by decide
  rw [hocc]

theorem claim_c6_overflow_witness :
    (busFields (errorRow 4)
      (tokensOf ("ff ff 0000 00000000 0000000000000000".toList))).inst = 0x4000 ∧
    (parseAndLogErrors (errorRow 4)
      ("ff ff 0000 00000000 0000000000000000".toList)).redfish =
      [RMsg.overflow "OpenBMC.0.1.AmpereCritical.Critical"
        ((errorRow 4).errName ++ ": " ++ "Overflow") "Socket1"] ∧
    mapLookup 0xffff = some ⟨255, 255, 1, "Overflow", "Socket%s"⟩ :=
  claim_c6_overflow (errorRow 4) ("ff ff 0000 00000000 0000000000000000".toList)
    (by decide) (by decide) (by decide) (by decide)

/-- One width-generic step for C7: whenever the magnitude of the subject
sequence does not exceed the strtoul saturation bound, the code parser agrees
with the direct mask-the-parsed-value reading. -/
theorem parse_eq_spec_of_le (w : Nat) (s : List Char)
    (hbound : ∀ neg m rest, strtoul16Core s = some (neg, m, rest) → m ≤ ULONG_MAX) :
    (if (strtoul16 s).2 ≠ [] then 0 else (strtoul16 s).1 % 2 ^ w) = specParseHex w s := by
  unfold specParseHex strtoul16
  cases hcore : strtoul16Core s with
  | none => simp
  | some trip =>
    obtain ⟨neg, m, rest⟩ := trip
    have hm : m ≤ ULONG_MAX := hbound neg m rest hcore
    have hfin : strtoulFinish neg m =
        if neg then (2 ^ 64 - m % 2 ^ 64) % 2 ^ 64 else m := by
      unfold strtoulFinish
      rw [if_neg (by omega)]
    simp only [hfin]

/-- C7, counterexample to the claim as stated.  For a token of 17 hex digits
the mathematical parsed value masked to 8 bits is `0x11`, but `strtoul`
saturates out-of-range magnitudes at `ULONG_MAX = 2^64 - 1`, so the code
returns `0xff`. -/
theorem claim_c7_counterexample :
    parseHexStrToUInt8 ("11111111111111111".toList) = 0xff ∧
    specParseHex 8 ("11111111111111111".toList) = 0x11 ∧
    (0xff : Nat) ≠ 0x11 := by
  decide

/-- C7, amended: the hex parsers are total and always in range; a string with
any character remaining after the subject sequence yields 0; and whenever the
parsed magnitude does not exceed the strtoul saturation bound `2^64 - 1`, the
result is exactly the parsed value masked to the requested width.  In
particular the line "0x 1 2 3 4" parses with `errType = 0` (the token "0x" has
trailing garbage after its numeric prefix) and still produces normal output
rather than aborting the sweep. -/
theorem claim_c7_parse (s : List Char) :
    (parseHexStrToUInt8 s < 2 ^ 8 ∧ parseHexStrToUInt16 s < 2 ^ 16 ∧
     parseHexStrToUInt32 s < 2 ^ 32 ∧ parseHexStrToUInt64 s < 2 ^ 64) ∧
    (∀ neg m c rest, strtoul16Core s = some (neg, m, c :: rest) →
       parseHexStrToUInt8 s = 0 ∧ parseHexStrToUInt16 s = 0 ∧
       parseHexStrToUInt32 s = 0 ∧ parseHexStrToUInt64 s = 0) ∧
    ((∀ neg m rest, strtoul16Core s = some (neg, m, rest) → m ≤ ULONG_MAX) →
       (parseHexStrToUInt8 s = specParseHex 8 s ∧
        parseHexStrToUInt16 s = specParseHex 16 s ∧
        parseHexStrToUInt32 s = specParseHex 32 s ∧
        parseHexStrToUInt64 s = specParseHex 64 s)) ∧
    (busFields (errorRow 0) (tokensOf ("0x 1 2 3 4".toList))).errType = 0 ∧
    parseAndLogErrors (errorRow 0) ("0x 1 2 3 4".toList) ≠ ⟨[], [], false⟩ := by
  refine ⟨⟨parseHexStrToUInt8_lt s, parseHexStrToUInt16_lt s,
    parseHexStrToUInt32_lt s, parseHexStrToUInt64_lt s⟩, ?_, ?_, by decide, by decide⟩
  · intro neg m c rest hcore
    have hne : (strtoul16 s).2 ≠ [] := by
      unfold strtoul16
      rw [hcore]
      simp
    refine ⟨?_, ?_, ?_, ?_⟩ <;>
      · show (if (strtoul16 s).2 ≠ [] then 0 else _) = 0
        rw [if_pos hne]
  · intro hbound
    exact ⟨parse_eq_spec_of_le 8 s hbound, parse_eq_spec_of_le 16 s hbound,
      parse_eq_spec_of_le 32 s hbound, parse_eq_spec_of_le 64 s hbound⟩

theorem claim_c7_parse_witness :
    parseHexStrToUInt8 ("1a".toList) = specParseHex 8 ("1a".toList) ∧
    parseHexStrToUInt8 ("1q".toList) = 0 :=
  ⟨((claim_c7_parse ("1a".toList)).2.2.1 (by
      intro neg m rest h
      rw [show strtoul16Core ("1a".toList) = some (false, 26, []) from by decide] at h
      simp only [Option.some.injEq, Prod.mk.injEq] at h
      obtain ⟨-, hm, -⟩ := h
      subst hm
      decide)).1,
   ((claim_c7_parse ("1q".toList)).2.1 false 1 'q' [] (by decide)).1⟩

/-- C8: malformed-record atomicity.  A bus-error line with fewer than 5
tokens, a firmware-error line with fewer than 6 tokens, and an event line with
fewer than 2 tokens are each dropped: no SEL record, no Redfish record, no
fault-marker creation, and no change to `curEventMask`. -/
theorem claim_c8_malformed :
    (∀ (d : ErrorData) (line : List Char), (tokensOf line).length < 5 →
      parseAndLogErrors d line = ⟨[], [], false⟩) ∧
    (∀ (d : ErrorData) (line : List Char), (tokensOf line).length < 6 →
      parseAndLogInternalErrors d line = ⟨[], [], false⟩) ∧
    (∀ (d : EventData) (cur : Nat) (line : List Char), (tokensOf line).length < 2 →
      parseAndLogEvents d cur line = (cur, [])) := by
  refine ⟨fun d line h => ?_, fun d line h => ?_, fun d cur line h => ?_⟩
  · simp only [parseAndLogErrors]
    rw [if_pos h]
  · simp only [parseAndLogInternalErrors]
    rw [if_pos h]
  · simp only [parseAndLogEvents]
    rw [if_pos h]

theorem claim_c8_malformed_witness :
    parseAndLogErrors (errorRow 0) ("ff ff".toList) = ⟨[], [], false⟩ ∧
    parseAndLogInternalErrors (errorRow 16) ("1 2 3 4 5".toList) = ⟨[], [], false⟩ ∧
    parseAndLogEvents (eventRow 0) 5 ("ff".toList) = (5, []) :=
  ⟨claim_c8_malformed.1 (errorRow 0) ("ff ff".toList) (by decide),
   claim_c8_malformed.2.1 (errorRow 16) ("1 2 3 4 5".toList) (by decide),
   claim_c8_malformed.2.2 (eventRow 0) 5 ("ff".toList) (by decide)⟩


end AmpereRas
